import Mathlib

/-!
Shallow embedding of the mesh provisioner credential/node registry
(components/bt/ble_mesh/mesh_core/provisioner_main.c).

The C module keeps global tables:
  - mesh_nodes : array of node pointers, partitioned into a self-provisioned
    region (indices below CONFIG_BLE_MESH_MAX_PROV_NODES) and an external region;
  - bt_mesh.p_sub : array of subnet (network key) pointers;
  - bt_mesh.p_app_keys : array of application key pointers;
  - index-allocation cursors bt_mesh.p_net_idx_next / p_app_idx_next;
  - the replay-protection list bt_mesh.rpl and the model directory.

Pointers that may be NULL are modelled as Option; C ints are Int, unsigned
fields are Nat.  External collaborators (random generation, NID/AID key
derivation, heap allocation) are modelled by an explicit environment.
A NULL-pointer dereference (undefined behaviour) is modelled by an Option
result at the whole-operation level: the value none means the C execution
crashes and never returns.
-/

set_option maxHeartbeats 1000000

/-- Models the C errno value EINVAL (returned negated). -/
def EINVAL : Int := 22

/-- Models the C errno value ENOMEM (returned negated). -/
def ENOMEM : Int := 12

/-- Models the C errno value EEXIST (returned negated). -/
def EEXIST : Int := 17

/-- Models the C errno value ENODEV (returned negated). -/
def ENODEV : Int := 19

/-- Models the C errno value EIO (returned negated). -/
def EIOC : Int := 5

/-- Sentinel for an unused model key-binding slot / unused key index. -/
def BLE_MESH_KEY_UNUSED : Nat := 0xFFFF

/-- Unassigned publication address. -/
def BLE_MESH_ADDR_UNASSIGNED : Nat := 0

/-- Normal (non-refreshing) key refresh phase. -/
def BLE_MESH_KR_NORMAL : Nat := 0

/-- Node identity advertising not supported. -/
def BLE_MESH_NODE_IDENTITY_NOT_SUPPORTED : Nat := 2

/-- Sixteen key bytes (compared with memcmp in the C code). -/
abbrev Key16 := List Nat

/-- A calloc-zeroed 16-byte key. -/
def zeroKey16 : Key16 := List.replicate 16 0

/-- One generation of network key material: struct bt_mesh_subnet_keys
(only the raw key bytes and derived NID matter to this module). -/
structure SubnetKeys where
  net : Key16
  nid : Nat
deriving DecidableEq, Repr

/-- A calloc-zeroed subnet key slot. -/
def zeroSubnetKeys : SubnetKeys := { net := zeroKey16, nid := 0 }

/-- One subnet row: struct bt_mesh_subnet. -/
structure Subnet where
  net_idx : Nat
  keys0 : SubnetKeys
  keys1 : SubnetKeys
  kr_flag : Bool
  kr_phase : Nat
  node_id : Nat
deriving DecidableEq, Repr

/-- One generation of application key material: struct bt_mesh_app_keys. -/
structure AppKeys where
  id : Nat
  val : Key16
deriving DecidableEq, Repr

/-- A calloc-zeroed application key slot. -/
def zeroAppKeys : AppKeys := { id := 0, val := zeroKey16 }

/-- One application key row: struct bt_mesh_app_key. -/
structure AppKey where
  net_idx : Nat
  app_idx : Nat
  keys0 : AppKeys
  keys1 : AppKeys
  updated : Bool
deriving DecidableEq, Repr

/-- Link-layer address with type tag: bt_mesh_addr_t. -/
structure MeshAddr where
  val : List Nat
  typ : Nat
deriving DecidableEq, Repr

/-- One admitted node: struct bt_mesh_node_t. -/
structure Node where
  addr : MeshAddr
  dev_uuid : Key16
  oob_info : Nat
  unicast_addr : Nat
  element_num : Nat
  net_idx : Nat
  flags : Nat
  iv_index : Nat
  dev_key : Key16
deriving DecidableEq, Repr

/-- One replay-protection list entry: struct bt_mesh_rpl
(source address plus the rest of the record, abstracted as seq). -/
structure Rpl where
  src : Nat
  seq : Nat
deriving DecidableEq, Repr

/-- A memset-zeroed replay-protection entry. -/
def zeroRpl : Rpl := { src := 0, seq := 0 }

/-- Model publication state: struct bt_mesh_model_pub.  The hasUpdate flag
models whether the pub->update callback pointer is non-NULL. -/
structure Pub where
  addr : Nat
  key : Nat
  cred : Nat
  ttl : Nat
  period : Nat
  retransmit : Nat
  count : Nat
  hasUpdate : Bool
deriving DecidableEq, Repr

/-- One model of the local element directory: its key-binding slot array
(model->keys) and optional publication state (model->pub may be NULL). -/
structure MeshModel where
  keys : List Nat
  pub : Option Pub
deriving DecidableEq, Repr

/-- The mutable global state of provisioner_main.c. -/
structure MeshState where
  mesh_nodes : List (Option Node)
  all_node_count : Nat
  prov_node_count : Nat
  p_sub : List (Option Subnet)
  p_app_keys : List (Option AppKey)
  p_net_idx_next : Nat
  p_app_idx_next : Nat
  rpl : List Rpl
  models : List MeshModel
deriving DecidableEq, Repr

/-- External collaborators: bt_mesh_rand, osi_calloc success,
bt_mesh_net_keys_create (NID derivation) and bt_mesh_app_id (AID derivation).
A none result models collaborator failure. -/
structure Env where
  rand : Option Key16
  allocOk : Bool
  nid : Key16 → Option Nat
  aid : Key16 → Option Nat

/-- Number of occupied (non-NULL) slots of a pointer table. -/
def countOccupied {α : Type} (l : List (Option α)) : Nat :=
  l.countP (fun o => o.isSome)

/-! ### Node registry -/

/-- provisioner_node_count_inc: unconditional u16 increments. -/
def provisioner_node_count_inc (s : MeshState) (prov : Bool) : MeshState :=
  { s with
    all_node_count := (s.all_node_count + 1) % 65536,
    prov_node_count := if prov then (s.prov_node_count + 1) % 65536 else s.prov_node_count }

/-- provisioner_node_count_dec: decrements guarded at zero. -/
def provisioner_node_count_dec (s : MeshState) (prov : Bool) : MeshState :=
  { s with
    all_node_count := if s.all_node_count ≠ 0 then s.all_node_count - 1 else s.all_node_count,
    prov_node_count :=
      if prov then
        (if s.prov_node_count ≠ 0 then s.prov_node_count - 1 else s.prov_node_count)
      else s.prov_node_count }

/-- provisioner_store_node: scan the selected partition
([0, maxProvNodes) when prov, [maxProvNodes, length) otherwise) for the first
free slot; allocate (may fail with -ENOMEM), copy the record, bump the
counters and report the chosen index. -/
def provisioner_store_node (maxProvNodes : Nat) (allocOk : Bool) (s : MeshState)
    (node : Node) (prov : Bool) : Int × MeshState × Option Nat :=
  match (List.range' (if prov then 0 else maxProvNodes)
      ((if prov then maxProvNodes else s.mesh_nodes.length) -
        (if prov then 0 else maxProvNodes))).find?
      (fun i => decide (s.mesh_nodes.get? i = some none)) with
  | none => (-ENOMEM, s, none)
  | some i =>
    if allocOk then
      (0, provisioner_node_count_inc
            { s with mesh_nodes := s.mesh_nodes.set i (some node) } prov, some i)
    else (-ENOMEM, s, none)

/-- provisioner_reset_node: an empty slot is a successful no-op; otherwise
clear the matching replay-protection entries, free the slot and decrement
the counters (is_prov is decided by the slot index). -/
def provisioner_reset_node (maxProvNodes : Nat) (s : MeshState) (node_index : Nat) :
    MeshState × Int :=
  match (s.mesh_nodes.get? node_index).getD none with
  | none => (s, 0)
  | some node =>
    let rpl2 := s.rpl.map fun r =>
      if node.unicast_addr ≤ r.src ∧ r.src < node.unicast_addr + node.element_num then
        zeroRpl
      else r
    let is_p := node_index < maxProvNodes
    (provisioner_node_count_dec
       { s with rpl := rpl2, mesh_nodes := s.mesh_nodes.set node_index none } is_p, 0)

/-- Shared body of provisioner_find_reset_node_with_uuid/addr: linear scan of
the self-provisioned partition for the first live record matching p;
on a match optionally reset it, and report whether a match was found. -/
def provisioner_find_reset_node_match (maxProvNodes : Nat) (p : Node → Bool)
    (s : MeshState) (reset : Bool) : Bool × MeshState :=
  match (s.mesh_nodes.take maxProvNodes).findIdx? (fun o => o.any p) with
  | some i => (true, if reset then (provisioner_reset_node maxProvNodes s i).1 else s)
  | none => (false, s)

/-- provisioner_find_reset_node_with_uuid. -/
def provisioner_find_reset_node_with_uuid (maxProvNodes : Nat) (s : MeshState)
    (uuid : Key16) (reset : Bool) : Bool × MeshState :=
  provisioner_find_reset_node_match maxProvNodes (fun n => decide (n.dev_uuid = uuid)) s reset

/-- provisioner_find_reset_node_with_addr (memcmp on addr bytes plus type). -/
def provisioner_find_reset_node_with_addr (maxProvNodes : Nat) (s : MeshState)
    (addr : MeshAddr) (reset : Bool) : Bool × MeshState :=
  provisioner_find_reset_node_match maxProvNodes
    (fun n => decide (n.addr.val = addr.val ∧ n.addr.typ = addr.typ)) s reset

/-! ### Key store check helpers -/

/-- provisioner_check_app_key: report the app_idx of the first live
application key either of whose key-material slots equals the given bytes
(none when no bytes were supplied or no row matches). -/
def provisioner_check_app_key (keys : List (Option AppKey)) (app_key : Option Key16) :
    Option Nat :=
  match app_key with
  | none => none
  | some k =>
    keys.findSome? fun o => o.bind fun key =>
      if key.keys0.val = k ∨ key.keys1.val = k then some key.app_idx else none

/-- provisioner_check_app_idx: in exist mode return -EEXIST when some live
application key already uses app_idx; otherwise return -ENODEV when none does. -/
def provisioner_check_app_idx (keys : List (Option AppKey)) (app_idx : Nat) (exist : Bool) :
    Int :=
  if exist then
    if keys.any (fun o => o.any fun key => decide (key.app_idx = app_idx)) then -EEXIST else 0
  else
    if keys.any (fun o => o.any fun key => decide (key.app_idx = app_idx)) then 0 else -ENODEV

/-- provisioner_check_app_key_full: index of the first free row, none when full. -/
def provisioner_check_app_key_full (keys : List (Option AppKey)) : Option Nat :=
  keys.findIdx? (fun o => o.isNone)

/-- provisioner_check_net_key: report the net_idx of the first live subnet
either of whose key-material slots equals the given bytes. -/
def provisioner_check_net_key (subs : List (Option Subnet)) (net_key : Option Key16) :
    Option Nat :=
  match net_key with
  | none => none
  | some k =>
    subs.findSome? fun o => o.bind fun sub =>
      if sub.keys0.net = k ∨ sub.keys1.net = k then some sub.net_idx else none

/-- provisioner_check_net_idx: in exist mode return -EEXIST when some live
subnet already uses net_idx; otherwise return -ENODEV when none does. -/
def provisioner_check_net_idx (subs : List (Option Subnet)) (net_idx : Nat) (exist : Bool) :
    Int :=
  if exist then
    if subs.any (fun o => o.any fun sub => decide (sub.net_idx = net_idx)) then -EEXIST else 0
  else
    if subs.any (fun o => o.any fun sub => decide (sub.net_idx = net_idx)) then 0 else -ENODEV

/-- provisioner_check_net_key_full: index of the first free row, none when full. -/
def provisioner_check_net_key_full (subs : List (Option Subnet)) : Option Nat :=
  subs.findIdx? (fun o => o.isNone)

/-! ### Model binding manager -/

/-- Field-clearing part of model_pub_clear on the optional publication state:
nothing to do when pub is NULL or the address is already unassigned. -/
def pub_fields_clear : Option Pub → Option Pub
  | none => none
  | some p =>
    if p.addr = BLE_MESH_ADDR_UNASSIGNED then some p
    else some { addr := BLE_MESH_ADDR_UNASSIGNED, key := 0, cred := 0, ttl := 0,
                period := 0, retransmit := 0, count := 0, hasUpdate := p.hasUpdate }

/-- Loop body of model_unbind: walk the slot array in order; every slot equal
to app_idx becomes the sentinel and triggers model_pub_clear. -/
def model_unbind_go (app_idx : Nat) : List Nat → Option Pub → List Nat × Option Pub
  | [], pub => ([], pub)
  | k :: ks, pub =>
    if k = app_idx then
      let res := model_unbind_go app_idx ks (pub_fields_clear pub)
      (BLE_MESH_KEY_UNUSED :: res.1, res.2)
    else
      let res := model_unbind_go app_idx ks pub
      (k :: res.1, res.2)

/-- model_unbind applied to one model. -/
def model_unbind (m : MeshModel) (app_idx : Nat) : MeshModel :=
  let res := model_unbind_go app_idx m.keys m.pub
  { keys := res.1, pub := res.2 }

/-- bt_mesh_model_foreach(_model_unbind, &app_idx): unbind app_idx from every
model of the local element directory. -/
def bt_mesh_model_foreach_unbind (models : List MeshModel) (app_idx : Nat) :
    List MeshModel :=
  models.map (fun m => model_unbind m app_idx)

/-! ### Application key store -/

/-- bt_mesh_provisioner_local_app_key_delete: validate both indices, then
unbind the key from every model and free the first row matching both
indices. -/
def bt_mesh_provisioner_local_app_key_delete (s : MeshState) (net_idx app_idx : Nat) :
    Int × MeshState :=
  if provisioner_check_net_idx s.p_sub net_idx false ≠ 0 then (-ENODEV, s)
  else if provisioner_check_app_idx s.p_app_keys app_idx false ≠ 0 then (-ENODEV, s)
  else
    match s.p_app_keys.findIdx?
        (fun o => o.any fun key => decide (key.net_idx = net_idx ∧ key.app_idx = app_idx)) with
    | some i =>
      (0, { s with
              models := bt_mesh_model_foreach_unbind s.models app_idx,
              p_app_keys := s.p_app_keys.set i none })
    | none => (-ENODEV, s)

/-- Index-allocation loop shared by both key adds: starting from the cursor,
advance past in-use indices; allocating cursor+k succeeds (the cursor ends at
the allocated index), reaching 0x1000 fails (the cursor ends at 0x1000).
The fuel argument only bounds the recursion; 0x1000 is always enough. -/
def alloc_idx_loop (inUse : Nat → Bool) : Nat → Nat → Option Nat
  | 0, _ => none
  | fuel + 1, cur =>
    if inUse cur then
      if cur + 1 ≥ 0x1000 then none
      else alloc_idx_loop inUse fuel (cur + 1)
    else some cur

/-- bt_mesh_provisioner_local_app_key_add.  The app_idx argument is the in/out
pointer (none models a NULL pointer); the result carries the error code, the
new state and the final pointed-to value. -/
def bt_mesh_provisioner_local_app_key_add (env : Env) (s : MeshState)
    (app_key : Option Key16) (net_idx : Nat) (app_idx_arg : Option Nat) :
    Int × MeshState × Option Nat :=
  if s.p_app_idx_next ≥ 0x1000 then (-EIOC, s, app_idx_arg)
  else
    match app_idx_arg with
    | none => (-EINVAL, s, none)
    | some aidx =>
      if aidx ≠ 0xFFFF ∧ aidx ≥ 0x1000 then (-EINVAL, s, some aidx)
      else
        match provisioner_check_app_key s.p_app_keys app_key with
        | some existing => (0, s, some existing)
        | none =>
          if provisioner_check_net_idx s.p_sub net_idx false ≠ 0 then (-ENODEV, s, some aidx)
          else if provisioner_check_app_idx s.p_app_keys aidx true ≠ 0 then
            (-EEXIST, s, some aidx)
          else
            match provisioner_check_app_key_full s.p_app_keys with
            | none => (-ENOMEM, s, some aidx)
            | some add =>
              match (match app_key with | none => env.rand | some k => some k) with
              | none => (-EIOC, s, some aidx)
              | some p_key =>
                if !env.allocOk then (-ENOMEM, s, some aidx)
                else
                  match env.aid p_key with
                  | none => (-EIOC, s, some aidx)
                  | some aid_v =>
                    if aidx ≠ 0xFFFF then
                      let key : AppKey :=
                        { net_idx := net_idx, app_idx := aidx,
                          keys0 := { id := aid_v, val := p_key }, keys1 := zeroAppKeys,
                          updated := false }
                      (0, { s with p_app_keys := s.p_app_keys.set add (some key) }, some aidx)
                    else
                      match alloc_idx_loop
                          (fun j => decide (provisioner_check_app_idx s.p_app_keys j true ≠ 0))
                          0x1000 s.p_app_idx_next with
                      | none => (-EIOC, { s with p_app_idx_next := 0x1000 }, some aidx)
                      | some newIdx =>
                        let key : AppKey :=
                          { net_idx := net_idx, app_idx := newIdx,
                            keys0 := { id := aid_v, val := p_key }, keys1 := zeroAppKeys,
                            updated := false }
                        (0, { s with
                                p_app_keys := s.p_app_keys.set add (some key),
                                p_app_idx_next := newIdx }, some newIdx)

/-- bt_mesh_provisioner_local_app_key_get: validate both indices, then return
the active key material (slot 1 when updated, slot 0 otherwise) of the first
row matching both indices. -/
def bt_mesh_provisioner_local_app_key_get (s : MeshState) (net_idx app_idx : Nat) :
    Option Key16 :=
  if provisioner_check_net_idx s.p_sub net_idx false ≠ 0 then none
  else if provisioner_check_app_idx s.p_app_keys app_idx false ≠ 0 then none
  else
    s.p_app_keys.findSome? fun o => o.bind fun key =>
      if key.net_idx = net_idx ∧ key.app_idx = app_idx then
        some (if key.updated then key.keys1.val else key.keys0.val)
      else none

/-! ### Network key store -/

/-- bt_mesh_provisioner_local_net_key_add, structured like the application
variant (no owning-index precondition, NID derivation instead of AID). -/
def bt_mesh_provisioner_local_net_key_add (env : Env) (s : MeshState)
    (net_key : Option Key16) (net_idx_arg : Option Nat) :
    Int × MeshState × Option Nat :=
  if s.p_net_idx_next ≥ 0x1000 then (-EIOC, s, net_idx_arg)
  else
    match net_idx_arg with
    | none => (-EINVAL, s, none)
    | some nidx =>
      if nidx ≠ 0xFFFF ∧ nidx ≥ 0x1000 then (-EINVAL, s, some nidx)
      else
        match provisioner_check_net_key s.p_sub net_key with
        | some existing => (0, s, some existing)
        | none =>
          if provisioner_check_net_idx s.p_sub nidx true ≠ 0 then (-EEXIST, s, some nidx)
          else
            match provisioner_check_net_key_full s.p_sub with
            | none => (-ENOMEM, s, some nidx)
            | some add =>
              match (match net_key with | none => env.rand | some k => some k) with
              | none => (-EIOC, s, some nidx)
              | some p_key =>
                if !env.allocOk then (-ENOMEM, s, some nidx)
                else
                  match env.nid p_key with
                  | none => (-EIOC, s, some nidx)
                  | some nid_v =>
                    if nidx ≠ 0xFFFF then
                      let sub : Subnet :=
                        { net_idx := nidx,
                          keys0 := { net := p_key, nid := nid_v }, keys1 := zeroSubnetKeys,
                          kr_flag := false, kr_phase := BLE_MESH_KR_NORMAL,
                          node_id := BLE_MESH_NODE_IDENTITY_NOT_SUPPORTED }
                      (0, { s with p_sub := s.p_sub.set add (some sub) }, some nidx)
                    else
                      match alloc_idx_loop
                          (fun j => decide (provisioner_check_net_idx s.p_sub j true ≠ 0))
                          0x1000 s.p_net_idx_next with
                      | none => (-EIOC, { s with p_net_idx_next := 0x1000 }, some nidx)
                      | some newIdx =>
                        let sub : Subnet :=
                          { net_idx := newIdx,
                            keys0 := { net := p_key, nid := nid_v }, keys1 := zeroSubnetKeys,
                            kr_flag := false, kr_phase := BLE_MESH_KR_NORMAL,
                            node_id := BLE_MESH_NODE_IDENTITY_NOT_SUPPORTED }
                        (0, { s with
                                p_sub := s.p_sub.set add (some sub),
                                p_net_idx_next := newIdx }, some newIdx)

/-- Cascade loop of bt_mesh_provisioner_local_net_key_delete over the
application key table indices.  The C loop reads p_app_keys[j]->net_idx
without a NULL check, so hitting an empty slot is undefined behaviour,
modelled as the crash result none.  The return value of the inner delete is
discarded, as in the C code. -/
def net_key_delete_cascade (sub_net_idx : Nat) : List Nat → MeshState → Option MeshState
  | [], s => some s
  | j :: rest, s =>
    match s.p_app_keys.get? j with
    | none => net_key_delete_cascade sub_net_idx rest s
    | some none => none
    | some (some key) =>
      if key.net_idx = sub_net_idx then
        net_key_delete_cascade sub_net_idx rest
          (bt_mesh_provisioner_local_app_key_delete s key.net_idx key.app_idx).2
      else net_key_delete_cascade sub_net_idx rest s

/-- bt_mesh_provisioner_local_net_key_delete: validate the index, run the
application-key cascade over the whole table, then free the subnet row.
The outer Option is the crash (undefined behaviour) channel. -/
def bt_mesh_provisioner_local_net_key_delete (s : MeshState) (net_idx : Nat) :
    Option (Int × MeshState) :=
  if provisioner_check_net_idx s.p_sub net_idx false ≠ 0 then some (-ENODEV, s)
  else
    match s.p_sub.findIdx? (fun o => o.any fun sub => decide (sub.net_idx = net_idx)) with
    | some i =>
      match net_key_delete_cascade net_idx (List.range s.p_app_keys.length) s with
      | none => none
      | some s1 => some (0, { s1 with p_sub := s1.p_sub.set i none })
    | none => some (-ENODEV, s)

/-- bt_mesh_provisioner_local_net_key_get: return the active key material
(slot 1 when kr_flag, slot 0 otherwise) of the first row matching the index. -/
def bt_mesh_provisioner_local_net_key_get (s : MeshState) (net_idx : Nat) :
    Option Key16 :=
  if provisioner_check_net_idx s.p_sub net_idx false ≠ 0 then none
  else
    s.p_sub.findSome? fun o => o.bind fun sub =>
      if sub.net_idx = net_idx then
        some (if sub.kr_flag then sub.keys1.net else sub.keys0.net)
      else none

/-! ### General helper lemmas -/

theorem findIdx?_acc_spec {α : Type} (q : α → Bool) :
    ∀ (l : List α) (i j : Nat), List.findIdx? q l i = some j →
      i ≤ j ∧ (∃ x, l.get? (j - i) = some x ∧ q x = true) ∧
        ∀ m y, m < j - i → l.get? m = some y → q y = false
  | [], i, j, h => by simp [List.findIdx?_nil] at h
  | x :: xs, i, j, h => by
    rw [List.findIdx?_cons] at h
    by_cases hx : q x
    · rw [if_pos hx] at h
      have hij : i = j := by simpa using h
      subst hij
      exact ⟨le_refl _, ⟨x, by simp, hx⟩, by omega⟩
    · rw [if_neg hx] at h
      obtain ⟨h1, ⟨y, hy, hqy⟩, hprev⟩ := findIdx?_acc_spec q xs (i + 1) j h
      refine ⟨by omega, ⟨y, ?_, hqy⟩, ?_⟩
      · have hji : j - i = (j - (i + 1)) + 1 := by omega
        rw [hji]
        simpa using hy
      · intro m z hm hz
        match m, hm, hz with
        | 0, hm, hz =>
          have hxz : x = z := by simpa using hz
          rw [← hxz]
          simpa using hx
        | m + 1, hm, hz =>
          exact hprev m z (by omega) (by simpa using hz)

theorem findIdx?_spec {α : Type} (q : α → Bool) (l : List α) (j : Nat)
    (h : List.findIdx? q l = some j) :
    (∃ x, l.get? j = some x ∧ q x = true) ∧
      ∀ m y, m < j → l.get? m = some y → q y = false := by
  obtain ⟨-, hx, hprev⟩ := findIdx?_acc_spec q l 0 j h
  simp only [Nat.sub_zero] at hx hprev
  exact ⟨hx, hprev⟩

theorem net_idx_live_any_iff (subs : List (Option Subnet)) (n : Nat) :
    (subs.any fun o => o.any fun sub => decide (sub.net_idx = n)) = true ↔
      ∃ sub, some sub ∈ subs ∧ sub.net_idx = n := by
  rw [List.any_eq_true]
  constructor
  · rintro ⟨o, ho, hq⟩
    cases o with
    | none => simp [Option.any] at hq
    | some sub =>
      rw [Option.any_some] at hq
      exact ⟨sub, ho, by simpa using hq⟩
  · rintro ⟨sub, hmem, hn⟩
    exact ⟨some sub, hmem, by simp [Option.any_some, hn]⟩

theorem app_idx_live_any_iff (keys : List (Option AppKey)) (n : Nat) :
    (keys.any fun o => o.any fun key => decide (key.app_idx = n)) = true ↔
      ∃ key, some key ∈ keys ∧ key.app_idx = n := by
  rw [List.any_eq_true]
  constructor
  · rintro ⟨o, ho, hq⟩
    cases o with
    | none => simp [Option.any] at hq
    | some key =>
      rw [Option.any_some] at hq
      exact ⟨key, ho, by simpa using hq⟩
  · rintro ⟨key, hmem, hn⟩
    exact ⟨some key, hmem, by simp [Option.any_some, hn]⟩

theorem check_net_idx_false_eq_zero (subs : List (Option Subnet)) (n : Nat) :
    provisioner_check_net_idx subs n false = 0 ↔ ∃ sub, some sub ∈ subs ∧ sub.net_idx = n := by
  unfold provisioner_check_net_idx
  by_cases h : (subs.any fun o => o.any fun sub => decide (sub.net_idx = n)) = true
  · simp only [Bool.false_eq_true, if_false, h, if_true]
    exact iff_of_true (by trivial) ((net_idx_live_any_iff subs n).mp h)
  · simp only [Bool.false_eq_true, if_false, h, if_false]
    refine iff_of_false (by decide) ?_
    rw [← net_idx_live_any_iff subs n]
    exact h

theorem check_net_idx_true_eq_zero (subs : List (Option Subnet)) (n : Nat) :
    provisioner_check_net_idx subs n true = 0 ↔ ¬ ∃ sub, some sub ∈ subs ∧ sub.net_idx = n := by
  unfold provisioner_check_net_idx
  by_cases h : (subs.any fun o => o.any fun sub => decide (sub.net_idx = n)) = true
  · simp only [if_true, h]
    exact iff_of_false (by decide) (by simpa using (net_idx_live_any_iff subs n).mp h)
  · simp only [if_true, h, if_false]
    refine iff_of_true rfl ?_
    rw [← net_idx_live_any_iff subs n]
    exact h

theorem check_app_idx_false_eq_zero (keys : List (Option AppKey)) (n : Nat) :
    provisioner_check_app_idx keys n false = 0 ↔ ∃ key, some key ∈ keys ∧ key.app_idx = n := by
  unfold provisioner_check_app_idx
  by_cases h : (keys.any fun o => o.any fun key => decide (key.app_idx = n)) = true
  · simp only [Bool.false_eq_true, if_false, h, if_true]
    exact iff_of_true (by trivial) ((app_idx_live_any_iff keys n).mp h)
  · simp only [Bool.false_eq_true, if_false, h, if_false]
    refine iff_of_false (by decide) ?_
    rw [← app_idx_live_any_iff keys n]
    exact h

theorem check_app_idx_true_eq_zero (keys : List (Option AppKey)) (n : Nat) :
    provisioner_check_app_idx keys n true = 0 ↔ ¬ ∃ key, some key ∈ keys ∧ key.app_idx = n := by
  unfold provisioner_check_app_idx
  by_cases h : (keys.any fun o => o.any fun key => decide (key.app_idx = n)) = true
  · simp only [if_true, h]
    exact iff_of_false (by decide) (by simpa using (app_idx_live_any_iff keys n).mp h)
  · simp only [if_true, h, if_false]
    refine iff_of_true rfl ?_
    rw [← app_idx_live_any_iff keys n]
    exact h

/-! ### Reset-node helper lemmas -/

theorem reset_node_of_empty (maxProvNodes : Nat) (s : MeshState) (i : Nat)
    (h : (s.mesh_nodes.get? i).getD none = none) :
    provisioner_reset_node maxProvNodes s i = (s, 0) := by
  unfold provisioner_reset_node
  rw [h]

theorem reset_node_of_occupied (maxProvNodes : Nat) (s : MeshState) (i : Nat) (node : Node)
    (h : s.mesh_nodes.get? i = some (some node)) :
    provisioner_reset_node maxProvNodes s i =
      (provisioner_node_count_dec
        { s with
            rpl := s.rpl.map fun r =>
              if node.unicast_addr ≤ r.src ∧ r.src < node.unicast_addr + node.element_num then
                zeroRpl
              else r,
            mesh_nodes := s.mesh_nodes.set i none } (decide (i < maxProvNodes)), 0) := by
  unfold provisioner_reset_node
  rw [h]
  rfl

theorem reset_node_err_zero (maxProvNodes : Nat) (s : MeshState) (i : Nat) :
    (provisioner_reset_node maxProvNodes s i).2 = 0 := by
  rcases hg : (s.mesh_nodes.get? i).getD none with _ | node
  · rw [reset_node_of_empty _ _ _ hg]
  · have hocc : s.mesh_nodes.get? i = some (some node) := by
      rcases hq : s.mesh_nodes.get? i with _ | o
      · rw [hq] at hg; simp at hg
      · rw [hq] at hg; rw [Option.getD_some] at hg; rw [hg]
    rw [reset_node_of_occupied _ _ _ _ hocc]

/-- Claim C7: provisioner_reset_node is idempotent: resetting an
already-empty slot succeeds with no effect, and of two consecutive resets of
the same in-range index both succeed while the second changes nothing at all
(in particular the node table, the total node count and the self-provisioned
node count are unchanged by the second call). -/
theorem reset_node_idempotent (maxProvNodes : Nat) (s : MeshState) (i : Nat)
    (hi : i < s.mesh_nodes.length) :
    (s.mesh_nodes.get? i = some none → provisioner_reset_node maxProvNodes s i = (s, 0)) ∧
    (provisioner_reset_node maxProvNodes s i).2 = 0 ∧
    provisioner_reset_node maxProvNodes (provisioner_reset_node maxProvNodes s i).1 i =
      ((provisioner_reset_node maxProvNodes s i).1, 0) := by
  refine ⟨fun h => reset_node_of_empty _ _ _ (by rw [h]; rfl),
          reset_node_err_zero _ _ _, ?_⟩
  rcases hg : (s.mesh_nodes.get? i).getD none with _ | node
  · rw [reset_node_of_empty _ _ _ hg]
    exact reset_node_of_empty _ _ _ hg
  · have hocc : s.mesh_nodes.get? i = some (some node) := by
      rcases hq : s.mesh_nodes.get? i with _ | o
      · rw [hq] at hg; simp at hg
      · rw [hq] at hg; rw [Option.getD_some] at hg; rw [hg]
    rw [reset_node_of_occupied _ _ _ _ hocc]
    apply reset_node_of_empty
    show (((s.mesh_nodes.set i none).get? i).getD none) = none
    rw [List.get?_eq_getElem?, List.getElem?_set_self hi]
    rfl

/-! ### Witness fixtures: small concrete states -/

/-- Example key bytes (all ones). -/
def exKeyA : Key16 := List.replicate 16 1

/-- Example key bytes (all twos). -/
def exKeyB : Key16 := List.replicate 16 2

/-- Example key bytes (all threes). -/
def exKeyC : Key16 := List.replicate 16 3

/-- Example live subnet with index 1 and material exKeyA. -/
def exSub : Subnet :=
  { net_idx := 1, keys0 := { net := exKeyA, nid := 3 }, keys1 := zeroSubnetKeys,
    kr_flag := false, kr_phase := 0, node_id := 2 }

/-- Example live application key with index 5 owned by subnet 1, material exKeyB. -/
def exAppKey : AppKey :=
  { net_idx := 1, app_idx := 5, keys0 := { id := 7, val := exKeyB }, keys1 := zeroAppKeys,
    updated := false }

/-- Example admitted node. -/
def exNode : Node :=
  { addr := { val := [1, 2, 3, 4, 5, 6], typ := 0 }, dev_uuid := exKeyA, oob_info := 0,
    unicast_addr := 2, element_num := 2, net_idx := 0, flags := 0, iv_index := 0,
    dev_key := exKeyB }

/-- Example environment where every collaborator succeeds. -/
def exEnv : Env :=
  { rand := some exKeyC, allocOk := true, nid := fun _ => some 1, aid := fun _ => some 2 }

/-- Example environment where heap allocation fails. -/
def exEnvNoAlloc : Env :=
  { rand := some exKeyC, allocOk := false, nid := fun _ => some 1, aid := fun _ => some 2 }

/-- Witness state for claim C7: one stored node, one empty slot. -/
def exS7 : MeshState :=
  { mesh_nodes := [some exNode, none, none], all_node_count := 1, prov_node_count := 1,
    p_sub := [], p_app_keys := [], p_net_idx_next := 1, p_app_idx_next := 0,
    rpl := [{ src := 2, seq := 9 }], models := [] }

/-- Witness for claim C7 at the concrete state exS7, slot 0. -/
theorem reset_node_idempotent_witness :
    0 < exS7.mesh_nodes.length ∧
    ((exS7.mesh_nodes.get? 0 = some none → provisioner_reset_node 2 exS7 0 = (exS7, 0)) ∧
     (provisioner_reset_node 2 exS7 0).2 = 0 ∧
     provisioner_reset_node 2 (provisioner_reset_node 2 exS7 0).1 0 =
       ((provisioner_reset_node 2 exS7 0).1, 0)) :=
  ⟨by decide, reset_node_idempotent 2 exS7 0 (by decide)⟩

/-! ### Claim C8 -/

/-- Counterexample state for claim C8: subnet 1 is live and an application
key with index 5 is live, but that key's owning net_idx is 7, not 1. -/
def exS8 : MeshState :=
  { mesh_nodes := [], all_node_count := 0, prov_node_count := 0,
    p_sub := [some exSub, none],
    p_app_keys := [some { exAppKey with net_idx := 7 }],
    p_net_idx_next := 2, p_app_idx_next := 0, rpl := [], models := [] }

/-- Claim C8 counterexample: a state with a live subnet of index 1 and a live
application key of index 5 on which bt_mesh_provisioner_local_app_key_get 1 5
returns nothing rather than the key material the claim promises (the live
key's owning net_idx is 7, and the scan requires both indices to match one
row). -/
theorem appkey_get_active_cex :
    (∃ sub, some sub ∈ exS8.p_sub ∧ sub.net_idx = 1) ∧
    (∃ key, some key ∈ exS8.p_app_keys ∧ key.app_idx = 5) ∧
    bt_mesh_provisioner_local_app_key_get exS8 1 5 = none :=
  ⟨⟨exSub, by decide, by decide⟩,
   ⟨{ exAppKey with net_idx := 7 }, by decide, by decide⟩,
   by decide⟩

/-- Claim C8 (amended): if some live subnet has the queried net_idx and some
live application key has both the queried app_idx and the queried net_idx as
its owning subnet, then the getter returns the active material — slot 1 when
that key's updated flag is set, else slot 0 — of such a live key. -/
theorem appkey_get_active (s : MeshState) (net_idx app_idx : Nat)
    (hsub : ∃ sub, some sub ∈ s.p_sub ∧ sub.net_idx = net_idx)
    (hkey : ∃ key, some key ∈ s.p_app_keys ∧ key.net_idx = net_idx ∧ key.app_idx = app_idx) :
    ∃ key, some key ∈ s.p_app_keys ∧ key.net_idx = net_idx ∧ key.app_idx = app_idx ∧
      bt_mesh_provisioner_local_app_key_get s net_idx app_idx =
        some (if key.updated then key.keys1.val else key.keys0.val) := by
  obtain ⟨k0, hk0mem, hk0n, hk0a⟩ := hkey
  have hc1 : provisioner_check_net_idx s.p_sub net_idx false = 0 :=
    (check_net_idx_false_eq_zero _ _).mpr hsub
  have hc2 : provisioner_check_app_idx s.p_app_keys app_idx false = 0 :=
    (check_app_idx_false_eq_zero _ _).mpr ⟨k0, hk0mem, hk0a⟩
  unfold bt_mesh_provisioner_local_app_key_get
  rw [if_neg (show ¬provisioner_check_net_idx s.p_sub net_idx false ≠ 0 from fun hh => hh hc1)]
  rw [if_neg (show ¬provisioner_check_app_idx s.p_app_keys app_idx false ≠ 0 from fun hh => hh hc2)]
  rcases hfind : s.p_app_keys.findSome? (fun o => o.bind fun key =>
      if key.net_idx = net_idx ∧ key.app_idx = app_idx then
        some (if key.updated then key.keys1.val else key.keys0.val)
      else none) with _ | b
  · exfalso
    have hnone := List.findSome?_eq_none_iff.mp hfind (some k0) hk0mem
    rw [Option.some_bind] at hnone
    rw [if_pos ⟨hk0n, hk0a⟩] at hnone
    cases hnone
  · obtain ⟨a, hamem, hfa⟩ := List.exists_of_findSome?_eq_some hfind
    cases a with
    | none => cases hfa
    | some key =>
      rw [Option.some_bind] at hfa
      by_cases hcond : key.net_idx = net_idx ∧ key.app_idx = app_idx
      · rw [if_pos hcond] at hfa
        refine ⟨key, hamem, hcond.1, hcond.2, ?_⟩
        rw [hfind, hfa]
      · rw [if_neg hcond] at hfa
        cases hfa

/-- Witness state for the amended claim C8: subnet 1 live, application key 5
owned by subnet 1. -/
def exS8w : MeshState :=
  { mesh_nodes := [], all_node_count := 0, prov_node_count := 0,
    p_sub := [some exSub, none], p_app_keys := [some exAppKey, none],
    p_net_idx_next := 2, p_app_idx_next := 0, rpl := [], models := [] }

/-- Witness for the amended claim C8 at the concrete state exS8w. -/
theorem appkey_get_active_witness :
    (∃ sub, some sub ∈ exS8w.p_sub ∧ sub.net_idx = 1) ∧
    (∃ key, some key ∈ exS8w.p_app_keys ∧ key.net_idx = 1 ∧ key.app_idx = 5) ∧
    (∃ key, some key ∈ exS8w.p_app_keys ∧ key.net_idx = 1 ∧ key.app_idx = 5 ∧
      bt_mesh_provisioner_local_app_key_get exS8w 1 5 =
        some (if key.updated then key.keys1.val else key.keys0.val)) :=
  ⟨⟨exSub, by decide, by decide⟩, ⟨exAppKey, by decide, by decide, by decide⟩,
   appkey_get_active exS8w 1 5 ⟨exSub, by decide, by decide⟩
     ⟨exAppKey, by decide, by decide, by decide⟩⟩

/-! ### More check-function bridges -/

theorem check_net_idx_true_of_exists (subs : List (Option Subnet)) (n : Nat)
    (h : ∃ sub, some sub ∈ subs ∧ sub.net_idx = n) :
    provisioner_check_net_idx subs n true = -EEXIST := by
  unfold provisioner_check_net_idx
  rw [if_pos ((net_idx_live_any_iff subs n).mpr h)]
  rfl

theorem check_app_idx_true_of_exists (keys : List (Option AppKey)) (n : Nat)
    (h : ∃ key, some key ∈ keys ∧ key.app_idx = n) :
    provisioner_check_app_idx keys n true = -EEXIST := by
  unfold provisioner_check_app_idx
  rw [if_pos ((app_idx_live_any_iff keys n).mpr h)]
  rfl

theorem check_net_key_full_eq_none (subs : List (Option Subnet)) :
    provisioner_check_net_key_full subs = none ↔ ∀ o ∈ subs, o ≠ none := by
  unfold provisioner_check_net_key_full
  rw [List.findIdx?_eq_none_iff]
  constructor
  · intro h o ho hnone
    have := h o ho
    rw [hnone] at this
    cases this
  · intro h o ho
    cases hq : o with
    | none => exact absurd hq (h o ho)
    | some x => rfl

theorem check_app_key_full_eq_none (keys : List (Option AppKey)) :
    provisioner_check_app_key_full keys = none ↔ ∀ o ∈ keys, o ≠ none := by
  unfold provisioner_check_app_key_full
  rw [List.findIdx?_eq_none_iff]
  constructor
  · intro h o ho hnone
    have := h o ho
    rw [hnone] at this
    cases this
  · intro h o ho
    cases hq : o with
    | none => exact absurd hq (h o ho)
    | some x => rfl

theorem check_net_key_some (subs : List (Option Subnet)) (K : Key16) (j : Nat)
    (h : provisioner_check_net_key subs (some K) = some j) :
    ∃ sub, some sub ∈ subs ∧ (sub.keys0.net = K ∨ sub.keys1.net = K) ∧ sub.net_idx = j := by
  unfold provisioner_check_net_key at h
  obtain ⟨a, hamem, hfa⟩ := List.exists_of_findSome?_eq_some h
  cases a with
  | none => cases hfa
  | some sub =>
    rw [Option.some_bind] at hfa
    by_cases hcond : sub.keys0.net = K ∨ sub.keys1.net = K
    · rw [if_pos hcond] at hfa
      exact ⟨sub, hamem, hcond, by injection hfa⟩
    · rw [if_neg hcond] at hfa
      cases hfa

/-! ### Claim C2 -/

/-- Counterexample/witness state for claim C2: subnet 1 live, application key
5 live with material exKeyB. -/
def exS2 : MeshState :=
  { mesh_nodes := [], all_node_count := 0, prov_node_count := 0,
    p_sub := [some exSub], p_app_keys := [some exAppKey, none],
    p_net_idx_next := 2, p_app_idx_next := 0, rpl := [], models := [] }

/-- Claim C2 counterexample: an application-key add whose net_idx (9) does
not reference any live subnet, yet whose key bytes duplicate the stored key's
material, returns success 0 (idempotently reporting index 5) instead of
failing NotFound: the duplicate-key check short-circuits before the net_idx
check. -/
theorem appkey_add_dead_netidx_cex :
    provisioner_check_net_idx exS2.p_sub 9 false ≠ 0 ∧
    bt_mesh_provisioner_local_app_key_add exEnv exS2 (some exKeyB) 9 (some 0xFFFF) =
      (0, exS2, some 5) :=
  ⟨by decide, by decide⟩

/-- Claim C2 (amended): an application-key add whose net_idx does not
reference a live subnet fails NotFound (-ENODEV) with the state unchanged,
provided the supplied key bytes do not duplicate an already-stored
application key (a duplicate is an idempotent success that short-circuits the
net_idx check) and the earlier guards pass: the app-index cursor is not
exhausted and the index argument is valid. -/
theorem appkey_add_dead_netidx_notfound (env : Env) (s : MeshState) (k : Option Key16)
    (net_idx aidx : Nat)
    (hcur : s.p_app_idx_next < 0x1000)
    (harg : aidx = 0xFFFF ∨ aidx < 0x1000)
    (hdup : provisioner_check_app_key s.p_app_keys k = none)
    (hdead : ¬ ∃ sub, some sub ∈ s.p_sub ∧ sub.net_idx = net_idx) :
    bt_mesh_provisioner_local_app_key_add env s k net_idx (some aidx) =
      (-ENODEV, s, some aidx) := by
  have hcur2 : ¬ s.p_app_idx_next ≥ 0x1000 := by omega
  have hvalid : ¬ (aidx ≠ 0xFFFF ∧ aidx ≥ 0x1000) := by
    rcases harg with h | h
    · exact fun hc => hc.1 h
    · exact fun hc => by omega
  have hd : provisioner_check_net_idx s.p_sub net_idx false ≠ 0 := by
    intro h0
    exact hdead ((check_net_idx_false_eq_zero _ _).mp h0)
  simp only [bt_mesh_provisioner_local_app_key_add, hdup, if_neg hcur2, if_neg hvalid,
    if_pos hd]

/-- Witness for the amended claim C2: concrete fresh key bytes and a dead
net_idx produce -ENODEV. -/
theorem appkey_add_dead_netidx_notfound_witness :
    exS2.p_app_idx_next < 0x1000 ∧
    ((2 : Nat) = 0xFFFF ∨ (2 : Nat) < 0x1000) ∧
    provisioner_check_app_key exS2.p_app_keys (some exKeyC) = none ∧
    bt_mesh_provisioner_local_app_key_add exEnv exS2 (some exKeyC) 9 (some 2) =
      (-ENODEV, exS2, some 2) :=
  ⟨by decide, Or.inr (by decide), by decide,
   appkey_add_dead_netidx_notfound exEnv exS2 (some exKeyC) 9 2 (by decide)
     (Or.inr (by decide)) (by decide)
     (fun ⟨sub, hmem, hidx⟩ => by
        have : sub = exSub := by
          have h1 : some sub ∈ [some exSub] := hmem
          simpa using h1
        rw [this] at hidx
        exact absurd hidx (by decide))⟩

/-! ### Claim C3 -/

/-- Counterexample state for claims C3/C4: subnet 1 live (material exKeyA),
one free subnet row, but the net-index cursor already exhausted (0x1000). -/
def exS3 : MeshState :=
  { mesh_nodes := [], all_node_count := 0, prov_node_count := 0,
    p_sub := [some exSub, none], p_app_keys := [],
    p_net_idx_next := 0x1000, p_app_idx_next := 0, rpl := [], models := [] }

/-- Claim C3 counterexample: the added bytes exKeyA match slot 0 of the live
row, yet the add is not an idempotent success: the cursor-exhaustion guard
(p_net_idx_next = 0x1000) fires first and the call fails -EIO. -/
theorem netkey_add_idempotent_cex :
    (some exSub ∈ exS3.p_sub ∧ exSub.keys0.net = exKeyA) ∧
    bt_mesh_provisioner_local_net_key_add exEnv exS3 (some exKeyA) (some 2) =
      (-EIOC, exS3, some 2) ∧
    -EIOC ≠ 0 :=
  ⟨⟨by decide, by decide⟩, by decide, by decide⟩

/-- Claim C3 (amended): provided the net-index cursor is not exhausted
(p_net_idx_next < 0x1000) and the desired-index argument is valid, adding key
bytes that match either key-material slot of a live row is an idempotent
success: it returns 0 together with the matching row's index, and the store
is completely unchanged, even when a different explicit desired index is
supplied. -/
theorem netkey_add_idempotent (env : Env) (s : MeshState) (K : Key16) (nidx : Nat)
    (hcur : s.p_net_idx_next < 0x1000)
    (harg : nidx = 0xFFFF ∨ nidx < 0x1000)
    (hdup : ∃ j, provisioner_check_net_key s.p_sub (some K) = some j) :
    ∃ j sub, some sub ∈ s.p_sub ∧ sub.net_idx = j ∧
      (sub.keys0.net = K ∨ sub.keys1.net = K) ∧
      bt_mesh_provisioner_local_net_key_add env s (some K) (some nidx) = (0, s, some j) := by
  obtain ⟨j, hj⟩ := hdup
  obtain ⟨sub, hmem, hmat, hidx⟩ := check_net_key_some s.p_sub K j hj
  have hcur2 : ¬ s.p_net_idx_next ≥ 0x1000 := by omega
  have hvalid : ¬ (nidx ≠ 0xFFFF ∧ nidx ≥ 0x1000) := by
    rcases harg with h | h
    · exact fun hc => hc.1 h
    · exact fun hc => by omega
  refine ⟨j, sub, hmem, hidx, hmat, ?_⟩
  simp only [bt_mesh_provisioner_local_net_key_add, hj, if_neg hcur2, if_neg hvalid]

/-- Witness state for the amended claim C3: subnet 1 live, free row, cursor 2. -/
def exS3w : MeshState :=
  { mesh_nodes := [], all_node_count := 0, prov_node_count := 0,
    p_sub := [some exSub, none], p_app_keys := [],
    p_net_idx_next := 2, p_app_idx_next := 0, rpl := [], models := [] }

/-- Witness for the amended claim C3 at the concrete state exS3w: re-adding
exKeyA under desired index 2 is an idempotent success reporting index 1. -/
theorem netkey_add_idempotent_witness :
    exS3w.p_net_idx_next < 0x1000 ∧
    ((2 : Nat) = 0xFFFF ∨ (2 : Nat) < 0x1000) ∧
    (∃ j, provisioner_check_net_key exS3w.p_sub (some exKeyA) = some j) ∧
    (∃ j sub, some sub ∈ exS3w.p_sub ∧ sub.net_idx = j ∧
      (sub.keys0.net = exKeyA ∨ sub.keys1.net = exKeyA) ∧
      bt_mesh_provisioner_local_net_key_add exEnv exS3w (some exKeyA) (some 2) =
        (0, exS3w, some j)) :=
  ⟨by decide, Or.inr (by decide), ⟨1, by decide⟩,
   netkey_add_idempotent exEnv exS3w exKeyA 2 (by decide) (Or.inr (by decide))
     ⟨1, by decide⟩⟩

/-! ### Claim C4 -/

/-- Claim C4 counterexample: an explicit-index add (index 2, not in use) of
fresh material (exKeyC) into a table with a free row fails with -EIO
(NoIndexAvailable) because the auto-allocation cursor is exhausted — a
failure mode tied to index space that the claim says cannot occur for an
explicit-index add. -/
theorem netkey_add_explicit_failures_cex :
    provisioner_check_net_key exS3.p_sub (some exKeyC) = none ∧
    provisioner_check_net_idx exS3.p_sub 2 true = 0 ∧
    provisioner_check_net_key_full exS3.p_sub = some 1 ∧
    bt_mesh_provisioner_local_net_key_add exEnv exS3 (some exKeyC) (some 2) =
      (-EIOC, exS3, some 2) ∧
    (-EIOC ≠ -EEXIST ∧ -EIOC ≠ -ENOMEM ∧ -EIOC ≠ 0) :=
  ⟨by decide, by decide, by decide, by decide, by decide, by decide, by decide⟩

/-- Claim C4 (amended): provided the auto-index cursor has not reached 0x1000
(otherwise the add fails NoIndexAvailable up front, even for an explicit
index), for an explicit-index add of non-duplicate material with working
allocation and derivation: an in-use index fails AlreadyExists, a free index
with no free row fails ResourceExhausted, and a free index with a free row
succeeds — so under the cursor precondition those are the only index- and
capacity-related failure modes. -/
theorem netkey_add_explicit_failure_modes (env : Env) (s : MeshState) (K : Key16)
    (nidx : Nat)
    (hcur : s.p_net_idx_next < 0x1000)
    (hidx : nidx < 0x1000) (hne : nidx ≠ 0xFFFF)
    (hdup : provisioner_check_net_key s.p_sub (some K) = none)
    (halloc : env.allocOk = true)
    (hnid : ∃ v, env.nid K = some v) :
    ((∃ sub, some sub ∈ s.p_sub ∧ sub.net_idx = nidx) →
       bt_mesh_provisioner_local_net_key_add env s (some K) (some nidx) =
         (-EEXIST, s, some nidx)) ∧
    ((¬ ∃ sub, some sub ∈ s.p_sub ∧ sub.net_idx = nidx) → (∀ o ∈ s.p_sub, o ≠ none) →
       bt_mesh_provisioner_local_net_key_add env s (some K) (some nidx) =
         (-ENOMEM, s, some nidx)) ∧
    ((¬ ∃ sub, some sub ∈ s.p_sub ∧ sub.net_idx = nidx) → (∃ o ∈ s.p_sub, o = none) →
       (bt_mesh_provisioner_local_net_key_add env s (some K) (some nidx)).1 = 0) := by
  have hcur2 : ¬ s.p_net_idx_next ≥ 0x1000 := by omega
  have hvalid : ¬ (nidx ≠ 0xFFFF ∧ nidx ≥ 0x1000) := fun hc => by omega
  obtain ⟨v, hv⟩ := hnid
  refine ⟨?_, ?_, ?_⟩
  · intro hin
    have hchk := check_net_idx_true_of_exists s.p_sub nidx hin
    simp only [bt_mesh_provisioner_local_net_key_add, hdup, if_neg hcur2, if_neg hvalid,
      hchk, if_pos (show (-EEXIST : Int) ≠ 0 by decide)]
  · intro hout hfullp
    have hchk : provisioner_check_net_idx s.p_sub nidx true = 0 :=
      (check_net_idx_true_eq_zero _ _).mpr hout
    have hfull : provisioner_check_net_key_full s.p_sub = none :=
      (check_net_key_full_eq_none _).mpr hfullp
    simp only [bt_mesh_provisioner_local_net_key_add, hdup, if_neg hcur2, if_neg hvalid,
      hchk, if_neg (show ¬ ((0 : Int) ≠ 0) from fun hh => hh rfl), hfull]
  · intro hout hfree
    have hchk : provisioner_check_net_idx s.p_sub nidx true = 0 :=
      (check_net_idx_true_eq_zero _ _).mpr hout
    have hfull : ∃ add, provisioner_check_net_key_full s.p_sub = some add := by
      rcases hq : provisioner_check_net_key_full s.p_sub with _ | add
      · exfalso
        obtain ⟨o, ho, hononc⟩ := hfree
        exact ((check_net_key_full_eq_none _).mp hq o ho) hononc
      · exact ⟨add, rfl⟩
    obtain ⟨add, hadd⟩ := hfull
    simp only [bt_mesh_provisioner_local_net_key_add, hdup, if_neg hcur2, if_neg hvalid,
      hchk, if_neg (show ¬ ((0 : Int) ≠ 0) from fun hh => hh rfl), hadd, halloc,
      Bool.not_true, hv, if_pos hne]
    rfl

/-- Witness for the amended claim C4 at the concrete state exS3w (cursor 2,
subnet 1 live, row 1 free): index 1 in use, index 2 free. -/
theorem netkey_add_explicit_failure_modes_witness :
    exS3w.p_net_idx_next < 0x1000 ∧ (2 : Nat) < 0x1000 ∧ (2 : Nat) ≠ 0xFFFF ∧
    provisioner_check_net_key exS3w.p_sub (some exKeyC) = none ∧
    exEnv.allocOk = true ∧ (∃ v, exEnv.nid exKeyC = some v) ∧
    (((∃ sub, some sub ∈ exS3w.p_sub ∧ sub.net_idx = 2) →
       bt_mesh_provisioner_local_net_key_add exEnv exS3w (some exKeyC) (some 2) =
         (-EEXIST, exS3w, some 2)) ∧
     ((¬ ∃ sub, some sub ∈ exS3w.p_sub ∧ sub.net_idx = 2) → (∀ o ∈ exS3w.p_sub, o ≠ none) →
       bt_mesh_provisioner_local_net_key_add exEnv exS3w (some exKeyC) (some 2) =
         (-ENOMEM, exS3w, some 2)) ∧
     ((¬ ∃ sub, some sub ∈ exS3w.p_sub ∧ sub.net_idx = 2) → (∃ o ∈ exS3w.p_sub, o = none) →
       (bt_mesh_provisioner_local_net_key_add exEnv exS3w (some exKeyC) (some 2)).1 = 0)) :=
  ⟨by decide, by decide, by decide, by decide, rfl, ⟨1, rfl⟩,
   netkey_add_explicit_failure_modes exEnv exS3w exKeyC 2 (by decide) (by decide)
     (by decide) (by decide) rfl ⟨1, rfl⟩⟩

/-! ### Claim C6 -/

/-- Claim C6: when a key add hits a mid-allocation ResourceExhausted (heap
allocation failure) or DerivationFailed (AID/NID derivation failure), the
whole key-store state is returned exactly as it was — no partially-written
row is visible to any later scan or lookup.  Stated for both the application
and the network key add, against any environment whose allocator or deriver
fails. -/
theorem key_add_rollback_on_failure (env : Env) (s : MeshState) (k nk : Option Key16)
    (net_idx : Nat) (a n : Option Nat)
    (happ : env.allocOk = false ∨ ∀ kk, env.aid kk = none)
    (hnet : env.allocOk = false ∨ ∀ kk, env.nid kk = none) :
    (bt_mesh_provisioner_local_app_key_add env s k net_idx a).2.1 = s ∧
    (bt_mesh_provisioner_local_net_key_add env s nk n).2.1 = s := by
  constructor
  · unfold bt_mesh_provisioner_local_app_key_add
    repeat' split
    all_goals try rfl
    all_goals rcases happ with h | h <;> simp_all
  · unfold bt_mesh_provisioner_local_net_key_add
    repeat' split
    all_goals try rfl
    all_goals rcases hnet with h | h <;> simp_all

/-- Witness for claim C6: a failing allocator env on the concrete state exS2
leaves the state untouched for both adds. -/
theorem key_add_rollback_on_failure_witness :
    (exEnvNoAlloc.allocOk = false ∨ ∀ kk, exEnvNoAlloc.aid kk = none) ∧
    (exEnvNoAlloc.allocOk = false ∨ ∀ kk, exEnvNoAlloc.nid kk = none) ∧
    ((bt_mesh_provisioner_local_app_key_add exEnvNoAlloc exS2 (some exKeyC) 1
        (some 9)).2.1 = exS2 ∧
     (bt_mesh_provisioner_local_net_key_add exEnvNoAlloc exS2 (some exKeyC)
        (some 9)).2.1 = exS2) :=
  ⟨Or.inl rfl, Or.inl rfl,
   key_add_rollback_on_failure exEnvNoAlloc exS2 (some exKeyC) (some exKeyC) 1
     (some 9) (some 9) (Or.inl rfl) (Or.inl rfl)⟩

/-! ### Claim C5: auto index allocation -/

theorem alloc_idx_loop_sound (inUse : Nat → Bool) :
    ∀ (fuel cur idx : Nat), cur < 0x1000 →
      alloc_idx_loop inUse fuel cur = some idx →
      cur ≤ idx ∧ idx < 0x1000 ∧ inUse idx = false ∧
        ∀ j, cur ≤ j → j < idx → inUse j = true := by
  intro fuel
  induction fuel with
  | zero =>
    intro cur idx hcur h
    simp [alloc_idx_loop] at h
  | succ fuel ih =>
    intro cur idx hcur h
    simp only [alloc_idx_loop] at h
    by_cases hu : inUse cur
    · rw [if_pos hu] at h
      by_cases hge : cur + 1 ≥ 0x1000
      · rw [if_pos hge] at h
        cases h
      · rw [if_neg hge] at h
        obtain ⟨h1, h2, h3, h4⟩ := ih (cur + 1) idx (by omega) h
        refine ⟨by omega, h2, h3, fun j hj1 hj2 => ?_⟩
        rcases Nat.eq_or_lt_of_le hj1 with rfl | hlt
        · exact hu
        · exact h4 j (by omega) hj2
    · rw [if_neg hu] at h
      injection h with h
      subst h
      exact ⟨le_refl _, hcur, by simpa using hu, fun j h1 h2 => by omega⟩

theorem alloc_idx_loop_exhausted (inUse : Nat → Bool) :
    ∀ (fuel cur : Nat), cur < 0x1000 → 0x1000 - cur ≤ fuel →
      alloc_idx_loop inUse fuel cur = none →
      ∀ j, cur ≤ j → j < 0x1000 → inUse j = true := by
  intro fuel
  induction fuel with
  | zero =>
    intro cur hcur hfuel h
    omega
  | succ fuel ih =>
    intro cur hcur hfuel h j hj1 hj2
    simp only [alloc_idx_loop] at h
    by_cases hu : inUse cur
    · rw [if_pos hu] at h
      by_cases hge : cur + 1 ≥ 0x1000
      · have hj : j = cur := by omega
        rw [hj]
        exact hu
      · rw [if_neg hge] at h
        rcases Nat.eq_or_lt_of_le hj1 with rfl | hlt
        · exact hu
        · exact ih (cur + 1) (by omega) (by omega) h j (by omega) hj2
    · rw [if_neg hu] at h
      cases h

theorem net_idx_used_bool (subs : List (Option Subnet)) (j : Nat) :
    decide (provisioner_check_net_idx subs j true ≠ 0) = true ↔
      ∃ sub, some sub ∈ subs ∧ sub.net_idx = j := by
  rw [decide_eq_true_eq]
  constructor
  · intro h
    by_contra hn
    exact h ((check_net_idx_true_eq_zero _ _).mpr hn)
  · intro h
    rw [check_net_idx_true_of_exists _ _ h]
    decide

theorem app_idx_used_bool (keys : List (Option AppKey)) (j : Nat) :
    decide (provisioner_check_app_idx keys j true ≠ 0) = true ↔
      ∃ key, some key ∈ keys ∧ key.app_idx = j := by
  rw [decide_eq_true_eq]
  constructor
  · intro h
    by_contra hn
    exact h ((check_app_idx_true_eq_zero _ _).mpr hn)
  · intro h
    rw [check_app_idx_true_of_exists _ _ h]
    decide

/-- Claim C5: with the auto sentinel (0xFFFF) as desired index, both key adds
allocate the smallest index that is not in use at or after the monotonically
advancing cursor (skipping in-use indices), every allocated index is strictly
below 0x1000, and when every index from the cursor up to 0x1000 is in use the
call fails NoIndexAvailable (-EIO) and no row is added. -/
theorem key_add_auto_allocates_least (env : Env) (s : MeshState) (K L : Key16)
    (anet v w addN addA : Nat)
    (hncur : s.p_net_idx_next < 0x1000)
    (hacur : s.p_app_idx_next < 0x1000)
    (hnodupN : provisioner_check_net_key s.p_sub (some K) = none)
    (hnodupA : provisioner_check_app_key s.p_app_keys (some L) = none)
    (hffN : provisioner_check_net_idx s.p_sub 0xFFFF true = 0)
    (hffA : provisioner_check_app_idx s.p_app_keys 0xFFFF true = 0)
    (hanet : provisioner_check_net_idx s.p_sub anet false = 0)
    (haddN : provisioner_check_net_key_full s.p_sub = some addN)
    (haddA : provisioner_check_app_key_full s.p_app_keys = some addA)
    (halloc : env.allocOk = true)
    (hnid : env.nid K = some v) (haid : env.aid L = some w) :
    ((∃ j, s.p_net_idx_next ≤ j ∧ j < 0x1000 ∧
        ¬ ∃ sub, some sub ∈ s.p_sub ∧ sub.net_idx = j) →
      ∃ idx, s.p_net_idx_next ≤ idx ∧ idx < 0x1000 ∧
        (¬ ∃ sub, some sub ∈ s.p_sub ∧ sub.net_idx = idx) ∧
        (∀ j, s.p_net_idx_next ≤ j → j < idx →
           ∃ sub, some sub ∈ s.p_sub ∧ sub.net_idx = j) ∧
        bt_mesh_provisioner_local_net_key_add env s (some K) (some 0xFFFF) =
          (0, { s with
                  p_sub := s.p_sub.set addN (some
                    { net_idx := idx, keys0 := { net := K, nid := v },
                      keys1 := zeroSubnetKeys, kr_flag := false,
                      kr_phase := BLE_MESH_KR_NORMAL,
                      node_id := BLE_MESH_NODE_IDENTITY_NOT_SUPPORTED }),
                  p_net_idx_next := idx }, some idx)) ∧
    ((∀ j, s.p_net_idx_next ≤ j → j < 0x1000 →
        ∃ sub, some sub ∈ s.p_sub ∧ sub.net_idx = j) →
      bt_mesh_provisioner_local_net_key_add env s (some K) (some 0xFFFF) =
        (-EIOC, { s with p_net_idx_next := 0x1000 }, some 0xFFFF)) ∧
    ((∃ j, s.p_app_idx_next ≤ j ∧ j < 0x1000 ∧
        ¬ ∃ key, some key ∈ s.p_app_keys ∧ key.app_idx = j) →
      ∃ idx, s.p_app_idx_next ≤ idx ∧ idx < 0x1000 ∧
        (¬ ∃ key, some key ∈ s.p_app_keys ∧ key.app_idx = idx) ∧
        (∀ j, s.p_app_idx_next ≤ j → j < idx →
           ∃ key, some key ∈ s.p_app_keys ∧ key.app_idx = j) ∧
        bt_mesh_provisioner_local_app_key_add env s (some L) anet (some 0xFFFF) =
          (0, { s with
                  p_app_keys := s.p_app_keys.set addA (some
                    { net_idx := anet, app_idx := idx, keys0 := { id := w, val := L },
                      keys1 := zeroAppKeys, updated := false }),
                  p_app_idx_next := idx }, some idx)) ∧
    ((∀ j, s.p_app_idx_next ≤ j → j < 0x1000 →
        ∃ key, some key ∈ s.p_app_keys ∧ key.app_idx = j) →
      bt_mesh_provisioner_local_app_key_add env s (some L) anet (some 0xFFFF) =
        (-EIOC, { s with p_app_idx_next := 0x1000 }, some 0xFFFF)) := by
  have hncur2 : ¬ s.p_net_idx_next ≥ 0x1000 := by omega
  have hacur2 : ¬ s.p_app_idx_next ≥ 0x1000 := by omega
  have hvalid : ¬ ((0xFFFF : Nat) ≠ 0xFFFF ∧ (0xFFFF : Nat) ≥ 0x1000) := fun hc => hc.1 rfl
  have hauto : ¬ ((0xFFFF : Nat) ≠ 0xFFFF) := fun hc => hc rfl
  refine ⟨?_, ?_, ?_, ?_⟩
  · intro hex
    rcases hloop : alloc_idx_loop
        (fun j => decide (provisioner_check_net_idx s.p_sub j true ≠ 0))
        0x1000 s.p_net_idx_next with _ | idx
    · exfalso
      obtain ⟨j, hj1, hj2, hjfree⟩ := hex
      have hused := alloc_idx_loop_exhausted _ 0x1000 s.p_net_idx_next hncur
        (by omega) hloop j hj1 hj2
      exact hjfree ((net_idx_used_bool _ _).mp hused)
    · obtain ⟨h1, h2, h3, h4⟩ := alloc_idx_loop_sound _ 0x1000 s.p_net_idx_next idx hncur hloop
      refine ⟨idx, h1, h2, ?_, ?_, ?_⟩
      · intro hex2
        rw [(net_idx_used_bool _ _).mpr hex2] at h3
        cases h3
      · intro j hj1 hj2
        exact (net_idx_used_bool _ _).mp (h4 j hj1 hj2)
      · simp only [bt_mesh_provisioner_local_net_key_add, hnodupN, if_neg hncur2,
          if_neg hvalid, hffN, if_neg (show ¬ ((0 : Int) ≠ 0) from fun hh => hh rfl),
          haddN, halloc, Bool.not_true, hnid, if_neg hauto, hloop]
        rfl
  · intro hall
    have hloop : alloc_idx_loop
        (fun j => decide (provisioner_check_net_idx s.p_sub j true ≠ 0))
        0x1000 s.p_net_idx_next = none := by
      rcases hq : alloc_idx_loop
          (fun j => decide (provisioner_check_net_idx s.p_sub j true ≠ 0))
          0x1000 s.p_net_idx_next with _ | idx
      · rfl
      · exfalso
        obtain ⟨h1, h2, h3, -⟩ := alloc_idx_loop_sound _ 0x1000 s.p_net_idx_next idx hncur hq
        rw [(net_idx_used_bool _ _).mpr (hall idx h1 h2)] at h3
        cases h3
    simp only [bt_mesh_provisioner_local_net_key_add, hnodupN, if_neg hncur2,
      if_neg hvalid, hffN, if_neg (show ¬ ((0 : Int) ≠ 0) from fun hh => hh rfl),
      haddN, halloc, Bool.not_true, hnid, if_neg hauto, hloop]
    rfl
  · intro hex
    rcases hloop : alloc_idx_loop
        (fun j => decide (provisioner_check_app_idx s.p_app_keys j true ≠ 0))
        0x1000 s.p_app_idx_next with _ | idx
    · exfalso
      obtain ⟨j, hj1, hj2, hjfree⟩ := hex
      have hused := alloc_idx_loop_exhausted _ 0x1000 s.p_app_idx_next hacur
        (by omega) hloop j hj1 hj2
      exact hjfree ((app_idx_used_bool _ _).mp hused)
    · obtain ⟨h1, h2, h3, h4⟩ := alloc_idx_loop_sound _ 0x1000 s.p_app_idx_next idx hacur hloop
      refine ⟨idx, h1, h2, ?_, ?_, ?_⟩
      · intro hex2
        rw [(app_idx_used_bool _ _).mpr hex2] at h3
        cases h3
      · intro j hj1 hj2
        exact (app_idx_used_bool _ _).mp (h4 j hj1 hj2)
      · simp only [bt_mesh_provisioner_local_app_key_add, hnodupA, if_neg hacur2,
          if_neg hvalid, hanet, if_neg (show ¬ ((0 : Int) ≠ 0) from fun hh => hh rfl),
          hffA, haddA, halloc, Bool.not_true, haid, if_neg hauto, hloop]
        rfl
  · intro hall
    have hloop : alloc_idx_loop
        (fun j => decide (provisioner_check_app_idx s.p_app_keys j true ≠ 0))
        0x1000 s.p_app_idx_next = none := by
      rcases hq : alloc_idx_loop
          (fun j => decide (provisioner_check_app_idx s.p_app_keys j true ≠ 0))
          0x1000 s.p_app_idx_next with _ | idx
      · rfl
      · exfalso
        obtain ⟨h1, h2, h3, -⟩ := alloc_idx_loop_sound _ 0x1000 s.p_app_idx_next idx hacur hq
        rw [(app_idx_used_bool _ _).mpr (hall idx h1 h2)] at h3
        cases h3
    simp only [bt_mesh_provisioner_local_app_key_add, hnodupA, if_neg hacur2,
      if_neg hvalid, hanet, if_neg (show ¬ ((0 : Int) ≠ 0) from fun hh => hh rfl),
      hffA, haddA, halloc, Bool.not_true, haid, if_neg hauto, hloop]
    rfl

/-- Witness for claim C5 at the concrete state exS8w (cursors 2 and 0, subnet
row 1 and application-key row 1 free). -/
theorem key_add_auto_allocates_least_witness :
    exS8w.p_net_idx_next < 0x1000 ∧
    provisioner_check_net_key exS8w.p_sub (some exKeyC) = none ∧
    (((∃ j, exS8w.p_net_idx_next ≤ j ∧ j < 0x1000 ∧
        ¬ ∃ sub, some sub ∈ exS8w.p_sub ∧ sub.net_idx = j) →
      ∃ idx, exS8w.p_net_idx_next ≤ idx ∧ idx < 0x1000 ∧
        (¬ ∃ sub, some sub ∈ exS8w.p_sub ∧ sub.net_idx = idx) ∧
        (∀ j, exS8w.p_net_idx_next ≤ j → j < idx →
           ∃ sub, some sub ∈ exS8w.p_sub ∧ sub.net_idx = j) ∧
        bt_mesh_provisioner_local_net_key_add exEnv exS8w (some exKeyC) (some 0xFFFF) =
          (0, { exS8w with
                  p_sub := exS8w.p_sub.set 1 (some
                    { net_idx := idx, keys0 := { net := exKeyC, nid := 1 },
                      keys1 := zeroSubnetKeys, kr_flag := false,
                      kr_phase := BLE_MESH_KR_NORMAL,
                      node_id := BLE_MESH_NODE_IDENTITY_NOT_SUPPORTED }),
                  p_net_idx_next := idx }, some idx)) ∧
    ((∀ j, exS8w.p_net_idx_next ≤ j → j < 0x1000 →
        ∃ sub, some sub ∈ exS8w.p_sub ∧ sub.net_idx = j) →
      bt_mesh_provisioner_local_net_key_add exEnv exS8w (some exKeyC) (some 0xFFFF) =
        (-EIOC, { exS8w with p_net_idx_next := 0x1000 }, some 0xFFFF)) ∧
    ((∃ j, exS8w.p_app_idx_next ≤ j ∧ j < 0x1000 ∧
        ¬ ∃ key, some key ∈ exS8w.p_app_keys ∧ key.app_idx = j) →
      ∃ idx, exS8w.p_app_idx_next ≤ idx ∧ idx < 0x1000 ∧
        (¬ ∃ key, some key ∈ exS8w.p_app_keys ∧ key.app_idx = idx) ∧
        (∀ j, exS8w.p_app_idx_next ≤ j → j < idx →
           ∃ key, some key ∈ exS8w.p_app_keys ∧ key.app_idx = j) ∧
        bt_mesh_provisioner_local_app_key_add exEnv exS8w (some exKeyC) 1 (some 0xFFFF) =
          (0, { exS8w with
                  p_app_keys := exS8w.p_app_keys.set 1 (some
                    { net_idx := 1, app_idx := idx, keys0 := { id := 2, val := exKeyC },
                      keys1 := zeroAppKeys, updated := false }),
                  p_app_idx_next := idx }, some idx)) ∧
    ((∀ j, exS8w.p_app_idx_next ≤ j → j < 0x1000 →
        ∃ key, some key ∈ exS8w.p_app_keys ∧ key.app_idx = j) →
      bt_mesh_provisioner_local_app_key_add exEnv exS8w (some exKeyC) 1 (some 0xFFFF) =
        (-EIOC, { exS8w with p_app_idx_next := 0x1000 }, some 0xFFFF))) :=
  ⟨by decide, by decide,
   key_add_auto_allocates_least exEnv exS8w exKeyC exKeyC 1 1 2 1 1 (by decide) (by decide)
     (by decide) (by decide) (by decide) (by decide) (by decide) (by decide) (by decide)
     rfl rfl rfl⟩

/-! ### Claim C9 -/

theorem reset_node_mesh_nodes_occupied (maxProvNodes : Nat) (s : MeshState) (i : Nat)
    (node : Node) (h : s.mesh_nodes.get? i = some (some node)) :
    (provisioner_reset_node maxProvNodes s i).1.mesh_nodes = s.mesh_nodes.set i none := by
  rw [reset_node_of_occupied _ _ _ _ h]
  rfl

theorem find_reset_match_some (maxProvNodes : Nat) (p : Node → Bool) (s : MeshState)
    (i : Nat)
    (hq : (s.mesh_nodes.take maxProvNodes).findIdx? (fun o => o.any p) = some i) :
    i < maxProvNodes ∧ i < s.mesh_nodes.length ∧
    (∃ node, s.mesh_nodes.get? i = some (some node) ∧ p node = true) ∧
    ∀ m node, m < i → s.mesh_nodes.get? m = some (some node) → p node = false := by
  obtain ⟨⟨x, hx, hpx⟩, hprev⟩ := findIdx?_spec _ _ _ hq
  have hilen : i < (s.mesh_nodes.take maxProvNodes).length := by
    by_contra hc
    rw [List.get?_len_le (by omega)] at hx
    cases hx
  rw [List.length_take] at hilen
  have hi1 : i < maxProvNodes := lt_of_lt_of_le hilen (min_le_left _ _)
  have hi2 : i < s.mesh_nodes.length := lt_of_lt_of_le hilen (min_le_right _ _)
  rw [List.get?_take hi1] at hx
  refine ⟨hi1, hi2, ?_, ?_⟩
  · cases x with
    | none => simp [Option.any] at hpx
    | some node =>
      rw [Option.any_some] at hpx
      exact ⟨node, hx, hpx⟩
  · intro m node hm hget
    have := hprev m (some node) hm (by rw [List.get?_take (by omega)]; exact hget)
    rw [Option.any_some] at this
    exact this

theorem find_reset_match_spec (maxProvNodes : Nat) (p : Node → Bool) (s : MeshState)
    (reset : Bool) :
    ((provisioner_find_reset_node_match maxProvNodes p s reset).1 = true ↔
      ∃ i, i < maxProvNodes ∧ ∃ node, s.mesh_nodes.get? i = some (some node) ∧ p node = true) ∧
    (reset = false → (provisioner_find_reset_node_match maxProvNodes p s reset).2 = s) ∧
    (∀ j, maxProvNodes ≤ j →
      (provisioner_find_reset_node_match maxProvNodes p s reset).2.mesh_nodes.get? j =
        s.mesh_nodes.get? j) ∧
    ((provisioner_find_reset_node_match maxProvNodes p s reset).1 = true → reset = true →
      ∃ i, i < maxProvNodes ∧
        (∃ node, s.mesh_nodes.get? i = some (some node) ∧ p node = true) ∧
        (provisioner_find_reset_node_match maxProvNodes p s reset).2.mesh_nodes.get? i =
          some none ∧
        ∀ j, j ≠ i →
          (provisioner_find_reset_node_match maxProvNodes p s reset).2.mesh_nodes.get? j =
            s.mesh_nodes.get? j) := by
  rcases hq : (s.mesh_nodes.take maxProvNodes).findIdx? (fun o => o.any p) with _ | i
  · have hfr : provisioner_find_reset_node_match maxProvNodes p s reset = (false, s) := by
      unfold provisioner_find_reset_node_match
      rw [hq]
    rw [hfr]
    refine ⟨?_, fun _ => rfl, fun j _ => rfl, fun h => by cases h⟩
    refine iff_of_false (by simp) ?_
    rintro ⟨i, hi, node, hget, hp⟩
    have hmem := List.findIdx?_eq_none_iff.mp hq (some node) ?memtake
    · rw [Option.any_some, hp] at hmem
      cases hmem
    · have hilen : i < s.mesh_nodes.length := by
        by_contra hc
        rw [List.get?_len_le (by omega)] at hget
        cases hget
      have : (s.mesh_nodes.take maxProvNodes).get? i = some (some node) := by
        rw [List.get?_take hi]
        exact hget
      exact List.get?_mem this
  · obtain ⟨hi1, hi2, ⟨node, hget, hp⟩, hprev⟩ := find_reset_match_some _ _ _ _ hq
    have hfr : provisioner_find_reset_node_match maxProvNodes p s reset =
        (true, if reset then (provisioner_reset_node maxProvNodes s i).1 else s) := by
      unfold provisioner_find_reset_node_match
      rw [hq]
    rw [hfr]
    refine ⟨iff_of_true rfl ⟨i, hi1, node, hget, hp⟩, ?_, ?_, ?_⟩
    · intro h
      rw [h]
      rfl
    · intro j hj
      cases reset with
      | false => rfl
      | true =>
        show (provisioner_reset_node maxProvNodes s i).1.mesh_nodes.get? j =
          s.mesh_nodes.get? j
        rw [reset_node_mesh_nodes_occupied _ _ _ _ hget, List.get?_eq_getElem?,
          List.get?_eq_getElem?, List.getElem?_set_ne (by omega)]
    · intro _ hreset
      subst hreset
      refine ⟨i, hi1, ⟨node, hget, hp⟩, ?_, ?_⟩
      · show ((provisioner_reset_node maxProvNodes s i).1.mesh_nodes.get? i) = some none
        rw [reset_node_mesh_nodes_occupied _ _ _ _ hget, List.get?_eq_getElem?,
          List.getElem?_set_self hi2]
      · intro j hj
        show (provisioner_reset_node maxProvNodes s i).1.mesh_nodes.get? j =
          s.mesh_nodes.get? j
        rw [reset_node_mesh_nodes_occupied _ _ _ _ hget, List.get?_eq_getElem?,
          List.get?_eq_getElem?, List.getElem?_set_ne (fun hc => hj hc.symm)]

/-- Claim C9: provisioner_find_reset_node_with_uuid and _with_addr scan only
the self-provisioned partition (indices below maxProvNodes): each returns
true exactly when some live record of that partition matches, a matching
record outside the partition is never found and never touched (slots at or
beyond maxProvNodes are always unchanged), and with the reset option set the
first match is reset (its slot is empty on return) while every other slot is
untouched. -/
theorem find_reset_scan_prov_partition (maxProvNodes : Nat) (s : MeshState)
    (uuid : Key16) (addr : MeshAddr) (reset : Bool) :
    (((provisioner_find_reset_node_with_uuid maxProvNodes s uuid reset).1 = true ↔
       ∃ i, i < maxProvNodes ∧ ∃ node, s.mesh_nodes.get? i = some (some node) ∧
         node.dev_uuid = uuid) ∧
     (reset = false → (provisioner_find_reset_node_with_uuid maxProvNodes s uuid reset).2 = s) ∧
     (∀ j, maxProvNodes ≤ j →
       (provisioner_find_reset_node_with_uuid maxProvNodes s uuid reset).2.mesh_nodes.get? j =
         s.mesh_nodes.get? j) ∧
     ((provisioner_find_reset_node_with_uuid maxProvNodes s uuid reset).1 = true →
      reset = true →
       ∃ i, i < maxProvNodes ∧
         (∃ node, s.mesh_nodes.get? i = some (some node) ∧ node.dev_uuid = uuid) ∧
         (provisioner_find_reset_node_with_uuid maxProvNodes s uuid
           reset).2.mesh_nodes.get? i = some none ∧
         ∀ j, j ≠ i →
           (provisioner_find_reset_node_with_uuid maxProvNodes s uuid
             reset).2.mesh_nodes.get? j = s.mesh_nodes.get? j)) ∧
    (((provisioner_find_reset_node_with_addr maxProvNodes s addr reset).1 = true ↔
       ∃ i, i < maxProvNodes ∧ ∃ node, s.mesh_nodes.get? i = some (some node) ∧
         node.addr.val = addr.val ∧ node.addr.typ = addr.typ) ∧
     (reset = false → (provisioner_find_reset_node_with_addr maxProvNodes s addr reset).2 = s) ∧
     (∀ j, maxProvNodes ≤ j →
       (provisioner_find_reset_node_with_addr maxProvNodes s addr reset).2.mesh_nodes.get? j =
         s.mesh_nodes.get? j) ∧
     ((provisioner_find_reset_node_with_addr maxProvNodes s addr reset).1 = true →
      reset = true →
       ∃ i, i < maxProvNodes ∧
         (∃ node, s.mesh_nodes.get? i = some (some node) ∧ node.addr.val = addr.val ∧
           node.addr.typ = addr.typ) ∧
         (provisioner_find_reset_node_with_addr maxProvNodes s addr
           reset).2.mesh_nodes.get? i = some none ∧
         ∀ j, j ≠ i →
           (provisioner_find_reset_node_with_addr maxProvNodes s addr
             reset).2.mesh_nodes.get? j = s.mesh_nodes.get? j)) := by
  constructor
  · have h := find_reset_match_spec maxProvNodes (fun n => decide (n.dev_uuid = uuid)) s reset
    simp only [decide_eq_true_eq] at h
    exact h
  · have h := find_reset_match_spec maxProvNodes
      (fun n => decide (n.addr.val = addr.val ∧ n.addr.typ = addr.typ)) s reset
    simp only [decide_eq_true_eq] at h
    exact h

/-- Witness for claim C9: on the concrete state exS7 the uuid scan of the
self-provisioned partition finds the node stored at slot 0. -/
theorem find_reset_scan_prov_partition_witness :
    (provisioner_find_reset_node_with_uuid 2 exS7 exKeyA true).1 = true :=
  ((find_reset_scan_prov_partition 2 exS7 exKeyA { val := [], typ := 0 } true).1.1).mpr
    ⟨0, by decide, exNode, by decide, by decide⟩

/-! ### Claim C10: node-count invariant -/

theorem take_set_comm {α : Type} (l : List α) (i m : Nat) (a : α) :
    (l.set i a).take m = (l.take m).set i a := by
  rw [List.ext_get?_iff]
  intro n
  by_cases hn : n < m
  · rw [List.get?_take hn, List.get?_set, List.get?_set]
    by_cases hin : i = n
    · rw [if_pos hin, if_pos hin, List.get?_take hn]
    · rw [if_neg hin, if_neg hin, List.get?_take hn]
  · rw [List.get?_len_le (by rw [List.length_take]; omega),
      List.get?_len_le (by rw [List.length_set, List.length_take]; omega)]

theorem get?_some_lt_length {α : Type} {l : List α} {i : Nat} {x : α}
    (h : l.get? i = some x) : i < l.length := by
  by_contra hc
  rw [List.get?_len_le (by omega)] at h
  cases h

theorem countOccupied_le_length {α : Type} (l : List (Option α)) :
    countOccupied l ≤ l.length :=
  List.countP_le_length _

theorem countOccupied_set_some {α : Type} (l : List (Option α)) (i : Nat) (x : α)
    (h : l.get? i = some none) :
    countOccupied (l.set i (some x)) = countOccupied l + 1 := by
  have hi : i < l.length := get?_some_lt_length h
  have hl : l[i] = none := by
    have := List.getElem?_eq_some.mp (by rw [← List.get?_eq_getElem?]; exact h)
    exact this.2
  unfold countOccupied
  rw [List.countP_set _ _ _ _ hi, hl]
  simp

theorem countOccupied_set_none {α : Type} (l : List (Option α)) (i : Nat) (x : α)
    (h : l.get? i = some (some x)) :
    countOccupied l = countOccupied (l.set i none) + 1 := by
  have hi : i < l.length := get?_some_lt_length h
  have hl : l[i] = some x := by
    have := List.getElem?_eq_some.mp (by rw [← List.get?_eq_getElem?]; exact h)
    exact this.2
  have hpos : 0 < countOccupied l := by
    unfold countOccupied
    rw [List.countP_pos]
    exact ⟨some x, List.get?_mem h, rfl⟩
  unfold countOccupied at hpos ⊢
  rw [List.countP_set _ _ _ _ hi, hl]
  simp only [Option.isSome_some, if_true, Option.isSome_none, Bool.false_eq_true, if_false]
  omega

/-- Invariant of claim C10: the total node count equals the number of
occupied slots, the self-provisioned count equals the number of occupied
slots in the partition below maxProvNodes, and the table geometry is sane
(at most 0xFFFF slots — the counters are u16 — with the partition inside). -/
def NodeInv (maxProvNodes : Nat) (s : MeshState) : Prop :=
  s.mesh_nodes.length ≤ 0xFFFF ∧ maxProvNodes ≤ s.mesh_nodes.length ∧
  s.all_node_count = countOccupied s.mesh_nodes ∧
  s.prov_node_count = countOccupied (s.mesh_nodes.take maxProvNodes)

/-- One node-registry mutation: a store (arbitrary record, partition flag and
allocator outcome) or a reset of an in-range index. -/
inductive NodeStep (maxProvNodes : Nat) : MeshState → MeshState → Prop
  | store (s : MeshState) (node : Node) (prov allocOk : Bool) :
      NodeStep maxProvNodes s (provisioner_store_node maxProvNodes allocOk s node prov).2.1
  | reset (s : MeshState) (i : Nat) (hi : i < s.mesh_nodes.length) :
      NodeStep maxProvNodes s (provisioner_reset_node maxProvNodes s i).1

/-- States reachable from an initial empty registry by stores and resets. -/
inductive NodeReach (maxProvNodes : Nat) : MeshState → Prop
  | init (s : MeshState) (hlen : s.mesh_nodes.length ≤ 0xFFFF)
      (hprov : maxProvNodes ≤ s.mesh_nodes.length)
      (hempty : ∀ o ∈ s.mesh_nodes, o = none)
      (hall : s.all_node_count = 0) (hprovc : s.prov_node_count = 0) :
      NodeReach maxProvNodes s
  | step (s t : MeshState) (hs : NodeReach maxProvNodes s)
      (hst : NodeStep maxProvNodes s t) : NodeReach maxProvNodes t

theorem store_node_eq_none (maxProvNodes : Nat) (allocOk : Bool) (s : MeshState)
    (node : Node) (prov : Bool)
    (h : (List.range' (if prov then 0 else maxProvNodes)
        ((if prov then maxProvNodes else s.mesh_nodes.length) -
          (if prov then 0 else maxProvNodes))).find?
        (fun i => decide (s.mesh_nodes.get? i = some none)) = none) :
    provisioner_store_node maxProvNodes allocOk s node prov = (-ENOMEM, s, none) := by
  unfold provisioner_store_node
  rw [h]

theorem store_node_eq_some (maxProvNodes : Nat) (allocOk : Bool) (s : MeshState)
    (node : Node) (prov : Bool) (i : Nat)
    (h : (List.range' (if prov then 0 else maxProvNodes)
        ((if prov then maxProvNodes else s.mesh_nodes.length) -
          (if prov then 0 else maxProvNodes))).find?
        (fun i => decide (s.mesh_nodes.get? i = some none)) = some i) :
    provisioner_store_node maxProvNodes allocOk s node prov =
      if allocOk then
        (0, provisioner_node_count_inc
              { s with mesh_nodes := s.mesh_nodes.set i (some node) } prov, some i)
      else (-ENOMEM, s, none) := by
  unfold provisioner_store_node
  rw [h]

theorem store_node_inv (maxProvNodes : Nat) (allocOk : Bool) (s : MeshState) (node : Node)
    (prov : Bool) (hinv : NodeInv maxProvNodes s) :
    NodeInv maxProvNodes (provisioner_store_node maxProvNodes allocOk s node prov).2.1 := by
  obtain ⟨hlen, hprov, hall, hpc⟩ := hinv
  rcases hfind : (List.range' (if prov then 0 else maxProvNodes)
      ((if prov then maxProvNodes else s.mesh_nodes.length) -
        (if prov then 0 else maxProvNodes))).find?
      (fun i => decide (s.mesh_nodes.get? i = some none)) with _ | i
  · rw [store_node_eq_none _ _ _ _ _ hfind]
    exact ⟨hlen, hprov, hall, hpc⟩
  · rw [store_node_eq_some _ _ _ _ _ _ hfind]
    cases allocOk with
    | false => exact ⟨hlen, hprov, hall, hpc⟩
    | true =>
      have hfree : s.mesh_nodes.get? i = some none := by
        have := List.find?_some hfind
        simpa using this
      have hmem := List.mem_of_find?_eq_some hfind
      rw [List.mem_range'_1] at hmem
      have hilen : i < s.mesh_nodes.length := by
        cases prov with
        | true => simp at hmem; omega
        | false => simp at hmem; omega
      have hc1 := countOccupied_set_some s.mesh_nodes i node hfree
      have hc1le : countOccupied (s.mesh_nodes.set i (some node)) ≤ s.mesh_nodes.length := by
        have h0 := countOccupied_le_length (s.mesh_nodes.set i (some node))
        rwa [List.length_set] at h0
      refine ⟨?_, ?_, ?_, ?_⟩
      · show (s.mesh_nodes.set i (some node)).length ≤ 0xFFFF
        rw [List.length_set]
        exact hlen
      · show maxProvNodes ≤ (s.mesh_nodes.set i (some node)).length
        rw [List.length_set]
        exact hprov
      · show (s.all_node_count + 1) % 65536 = countOccupied (s.mesh_nodes.set i (some node))
        rw [hall, hc1, Nat.mod_eq_of_lt (by omega)]
      · show (if prov = true then (s.prov_node_count + 1) % 65536 else s.prov_node_count) =
          countOccupied ((s.mesh_nodes.set i (some node)).take maxProvNodes)
        cases prov with
        | true =>
          have hiprov : i < maxProvNodes := by
            simp at hmem
            omega
          have htk : (s.mesh_nodes.take maxProvNodes).get? i = some none := by
            rw [List.get?_take hiprov]
            exact hfree
          have hc2 := countOccupied_set_some (s.mesh_nodes.take maxProvNodes) i node htk
          have hc2le : countOccupied ((s.mesh_nodes.take maxProvNodes).set i (some node)) ≤
              s.mesh_nodes.length := by
            have h0 := countOccupied_le_length
              ((s.mesh_nodes.take maxProvNodes).set i (some node))
            rw [List.length_set, List.length_take] at h0
            omega
          rw [if_pos rfl, take_set_comm, hpc, hc2, Nat.mod_eq_of_lt (by omega)]
        | false =>
          have hiprov : maxProvNodes ≤ i := by
            simp at hmem
            omega
          have htk : (s.mesh_nodes.set i (some node)).take maxProvNodes =
              s.mesh_nodes.take maxProvNodes := by
            rw [take_set_comm]
            exact List.set_eq_of_length_le (by rw [List.length_take]; omega)
          rw [if_neg (by decide), htk, hpc]

theorem reset_node_inv (maxProvNodes : Nat) (s : MeshState) (i : Nat)
    (hinv : NodeInv maxProvNodes s) :
    NodeInv maxProvNodes (provisioner_reset_node maxProvNodes s i).1 := by
  obtain ⟨hlen, hprov, hall, hpc⟩ := hinv
  rcases hg : (s.mesh_nodes.get? i).getD none with _ | node
  · rw [reset_node_of_empty _ _ _ hg]
    exact ⟨hlen, hprov, hall, hpc⟩
  · have hocc : s.mesh_nodes.get? i = some (some node) := by
      rcases hq : s.mesh_nodes.get? i with _ | o
      · rw [hq] at hg; simp at hg
      · rw [hq] at hg; rw [Option.getD_some] at hg; rw [hg]
    have hilen : i < s.mesh_nodes.length := get?_some_lt_length hocc
    have hc1 := countOccupied_set_none s.mesh_nodes i node hocc
    rw [reset_node_of_occupied _ _ _ _ hocc]
    refine ⟨?_, ?_, ?_, ?_⟩
    · show (s.mesh_nodes.set i none).length ≤ 0xFFFF
      rw [List.length_set]
      exact hlen
    · show maxProvNodes ≤ (s.mesh_nodes.set i none).length
      rw [List.length_set]
      exact hprov
    · show (if s.all_node_count ≠ 0 then s.all_node_count - 1 else s.all_node_count) =
        countOccupied (s.mesh_nodes.set i none)
      rw [if_pos (by omega)]
      omega
    · show (if decide (i < maxProvNodes) = true then
          (if s.prov_node_count ≠ 0 then s.prov_node_count - 1 else s.prov_node_count)
        else s.prov_node_count) =
        countOccupied ((s.mesh_nodes.set i none).take maxProvNodes)
      by_cases hip : i < maxProvNodes
      · have htk : (s.mesh_nodes.take maxProvNodes).get? i = some (some node) := by
          rw [List.get?_take hip]
          exact hocc
        have hc2 := countOccupied_set_none (s.mesh_nodes.take maxProvNodes) i node htk
        rw [if_pos (by simpa using hip), if_pos (by omega), take_set_comm]
        omega
      · have htk : (s.mesh_nodes.set i none).take maxProvNodes =
            s.mesh_nodes.take maxProvNodes := by
          rw [take_set_comm]
          exact List.set_eq_of_length_le (by rw [List.length_take]; omega)
        rw [if_neg (by simpa using hip), htk, hpc]

theorem node_inv_of_reach (maxProvNodes : Nat) (s : MeshState)
    (h : NodeReach maxProvNodes s) : NodeInv maxProvNodes s := by
  induction h with
  | init s hlen hprov hempty hall hprovc =>
    have hcnt : countOccupied s.mesh_nodes = 0 := by
      unfold countOccupied
      rw [List.countP_eq_length_filter, List.length_eq_zero, List.filter_eq_nil]
      intro o ho
      rw [hempty o ho]
      decide
    have hcnt2 : countOccupied (s.mesh_nodes.take maxProvNodes) = 0 := by
      unfold countOccupied
      rw [List.countP_eq_length_filter, List.length_eq_zero, List.filter_eq_nil]
      intro o ho
      rw [hempty o (List.mem_of_mem_take ho)]
      decide
    exact ⟨hlen, hprov, by rw [hall, hcnt], by rw [hprovc, hcnt2]⟩
  | step s t hs hst ih =>
    cases hst with
    | store node prov allocOk => exact store_node_inv _ _ _ _ _ ih
    | reset i hi => exact reset_node_inv _ _ _ ih

/-- Claim C10: after every sequence of node store and node reset operations
(starting from an empty registry), the total node count equals the number of
occupied slots of the node table and the self-provisioned count equals the
number of occupied slots below the self-provisioned partition capacity; in
particular neither counter can underflow, since each equals a count of
occupied slots and the guarded decrements never fire on zero. -/
theorem node_count_invariant (maxProvNodes : Nat) (s : MeshState)
    (h : NodeReach maxProvNodes s) :
    s.all_node_count = countOccupied s.mesh_nodes ∧
    s.prov_node_count = countOccupied (s.mesh_nodes.take maxProvNodes) := by
  obtain ⟨-, -, h1, h2⟩ := node_inv_of_reach maxProvNodes s h
  exact ⟨h1, h2⟩

/-- Initial empty registry used by the C10 witness. -/
def exS10 : MeshState :=
  { mesh_nodes := [none, none, none], all_node_count := 0, prov_node_count := 0,
    p_sub := [], p_app_keys := [], p_net_idx_next := 1, p_app_idx_next := 0,
    rpl := [], models := [] }

/-- Witness for claim C10: after storing one self-provisioned node into the
empty three-slot registry, both counters match the occupancy counts. -/
theorem node_count_invariant_witness :
    (provisioner_store_node 2 true exS10 exNode true).2.1.all_node_count =
      countOccupied (provisioner_store_node 2 true exS10 exNode true).2.1.mesh_nodes ∧
    (provisioner_store_node 2 true exS10 exNode true).2.1.prov_node_count =
      countOccupied ((provisioner_store_node 2 true exS10 exNode true).2.1.mesh_nodes.take 2) :=
  node_count_invariant 2 (provisioner_store_node 2 true exS10 exNode true).2.1
    (NodeReach.step exS10 _
      (NodeReach.init exS10 (by decide) (by decide) (by decide) rfl rfl)
      (NodeStep.store exS10 exNode true true))

/-! ### Claim C1: cascade completeness of network-key delete -/

theorem model_unbind_go_keys (a : Nat) :
    ∀ (ks : List Nat) (pub : Option Pub) (x : Nat),
      x ∈ (model_unbind_go a ks pub).1 →
      x = BLE_MESH_KEY_UNUSED ∨ (x ∈ ks ∧ x ≠ a)
  | [], pub, x, hx => by simp [model_unbind_go] at hx
  | k :: ks, pub, x, hx => by
    by_cases hk : k = a
    · simp only [model_unbind_go, if_pos hk] at hx
      rcases List.mem_cons.mp hx with h | h
      · exact Or.inl h
      · rcases model_unbind_go_keys a ks (pub_fields_clear pub) x h with h' | ⟨h1, h2⟩
        · exact Or.inl h'
        · exact Or.inr ⟨List.mem_cons_of_mem _ h1, h2⟩
    · simp only [model_unbind_go, if_neg hk] at hx
      rcases List.mem_cons.mp hx with h | h
      · subst h
        exact Or.inr ⟨List.mem_cons_self _ _, hk⟩
      · rcases model_unbind_go_keys a ks pub x h with h' | ⟨h1, h2⟩
        · exact Or.inl h'
        · exact Or.inr ⟨List.mem_cons_of_mem _ h1, h2⟩

theorem model_unbind_removes (mo : MeshModel) (a : Nat) (ha : a ≠ BLE_MESH_KEY_UNUSED) :
    a ∉ (model_unbind mo a).keys := by
  intro hmem
  rcases model_unbind_go_keys a mo.keys mo.pub a hmem with h | ⟨-, h⟩
  · exact ha h
  · exact h rfl

theorem model_unbind_preserves_absent (mo : MeshModel) (x y : Nat)
    (hx : x ∉ mo.keys) (hxf : x ≠ BLE_MESH_KEY_UNUSED) :
    x ∉ (model_unbind mo y).keys := by
  intro hmem
  rcases model_unbind_go_keys y mo.keys mo.pub x hmem with h | ⟨h1, -⟩
  · exact hxf h
  · exact hx h1

theorem findIdx?_acc_eq_some_of {α : Type} (q : α → Bool) :
    ∀ (l : List α) (i j : Nat) (x : α),
      l.get? j = some x → q x = true →
      (∀ m y, m < j → l.get? m = some y → q y = false) →
      List.findIdx? q l i = some (i + j)
  | [], i, j, x, hx, _, _ => by
    rw [List.get?_len_le (by simp)] at hx
    cases hx
  | a :: as, i, j, x, hx, hqx, hprev => by
    rw [List.findIdx?_cons]
    cases j with
    | zero =>
      have hxa : a = x := by simpa using hx
      subst hxa
      rw [if_pos hqx, Nat.add_zero]
    | succ j =>
      have hqa : q a = false := hprev 0 a (Nat.succ_pos _) (by simp)
      rw [if_neg (by simp [hqa])]
      have hrec := findIdx?_acc_eq_some_of q as (i + 1) j x (by simpa using hx) hqx
        (fun m y hm hy => hprev (m + 1) y (by omega) (by simpa using hy))
      rw [hrec]
      congr 1
      omega

theorem findIdx?_eq_some_of {α : Type} (q : α → Bool) (l : List α) (j : Nat) (x : α)
    (hx : l.get? j = some x) (hqx : q x = true)
    (hprev : ∀ m y, m < j → l.get? m = some y → q y = false) :
    List.findIdx? q l = some j := by
  have := findIdx?_acc_eq_some_of q l 0 j x hx hqx hprev
  rwa [Nat.zero_add] at this

theorem app_key_delete_eq (t : MeshState) (nn : Nat) (j : Nat) (key : AppKey)
    (hchk : provisioner_check_net_idx t.p_sub nn false = 0)
    (hj : t.p_app_keys.get? j = some (some key))
    (hkey : key.net_idx = nn)
    (hfirst : ∀ m k0, m < j → t.p_app_keys.get? m = some (some k0) →
       ¬(k0.net_idx = nn ∧ k0.app_idx = key.app_idx)) :
    bt_mesh_provisioner_local_app_key_delete t nn key.app_idx =
      (0, { t with
              models := bt_mesh_model_foreach_unbind t.models key.app_idx,
              p_app_keys := t.p_app_keys.set j none }) := by
  unfold bt_mesh_provisioner_local_app_key_delete
  rw [if_neg (fun hh => hh hchk)]
  have hax : provisioner_check_app_idx t.p_app_keys key.app_idx false = 0 :=
    (check_app_idx_false_eq_zero _ _).mpr ⟨key, List.get?_mem hj, rfl⟩
  rw [if_neg (fun hh => hh hax)]
  have hfi : t.p_app_keys.findIdx?
      (fun o => o.any fun k0 => decide (k0.net_idx = nn ∧ k0.app_idx = key.app_idx)) =
      some j := by
    apply findIdx?_eq_some_of _ _ _ (some key) hj
    · rw [Option.any_some]
      simp [hkey]
    · intro m y hm hy
      cases y with
      | none => rfl
      | some k0 =>
        rw [Option.any_some]
        simpa using hfirst m k0 hm hy
  rw [hfi]

theorem get?_set_self2 {α : Type} (l : List α) (i : Nat) (a : α) (hi : i < l.length) :
    (l.set i a).get? i = some a := by
  rw [List.get?_eq_getElem?]
  exact List.getElem?_set_self hi

theorem get?_set_ne2 {α : Type} (l : List α) {i j : Nat} (a : α) (h : i ≠ j) :
    (l.set i a).get? j = l.get? j := by
  rw [List.get?_eq_getElem?, List.get?_eq_getElem?]
  exact List.getElem?_set_ne h

theorem cascade_inv (n : Nat) (s0 : MeshState)
    (hlive : ∃ sub, some sub ∈ s0.p_sub ∧ sub.net_idx = n)
    (hwf : ∀ k, some k ∈ s0.p_app_keys → k.app_idx ≠ BLE_MESH_KEY_UNUSED) :
    ∀ (cnt j : Nat) (t s1 : MeshState),
      j + cnt = s0.p_app_keys.length →
      t.p_sub = s0.p_sub →
      t.p_app_keys.length = s0.p_app_keys.length →
      (∀ m, m < j → ∃ k0, s0.p_app_keys.get? m = some (some k0)) →
      (∀ m k0, m < j → s0.p_app_keys.get? m = some (some k0) →
         (k0.net_idx = n → t.p_app_keys.get? m = some none ∧
            ∀ mo ∈ t.models, k0.app_idx ∉ mo.keys) ∧
         (k0.net_idx ≠ n → t.p_app_keys.get? m = s0.p_app_keys.get? m)) →
      (∀ m, j ≤ m → t.p_app_keys.get? m = s0.p_app_keys.get? m) →
      net_key_delete_cascade n (List.range' j cnt) t = some s1 →
      s1.p_sub = s0.p_sub ∧
      s1.p_app_keys.length = s0.p_app_keys.length ∧
      (∀ m, m < s0.p_app_keys.length → ∃ k0, s0.p_app_keys.get? m = some (some k0)) ∧
      (∀ m k0, m < s0.p_app_keys.length → s0.p_app_keys.get? m = some (some k0) →
         (k0.net_idx = n → s1.p_app_keys.get? m = some none ∧
            ∀ mo ∈ s1.models, k0.app_idx ∉ mo.keys) ∧
         (k0.net_idx ≠ n → s1.p_app_keys.get? m = s0.p_app_keys.get? m)) := by
  intro cnt
  induction cnt with
  | zero =>
    intro j t s1 hlen hsub hklen hocc hproc hunproc hcas
    have hj : j = s0.p_app_keys.length := by omega
    subst hj
    rw [List.range'_zero] at hcas
    simp only [net_key_delete_cascade] at hcas
    injection hcas with hts
    subst hts
    exact ⟨hsub, hklen, hocc, hproc⟩
  | succ cnt ih =>
    intro j t s1 hlen hsub hklen hocc hproc hunproc hcas
    rw [List.range'_succ] at hcas
    have hjlen : j < s0.p_app_keys.length := by omega
    have htj : t.p_app_keys.get? j = s0.p_app_keys.get? j := hunproc j (le_refl j)
    rcases hsj : s0.p_app_keys.get? j with _ | o
    · rw [List.get?_eq_none] at hsj
      omega
    · cases o with
      | none =>
        rw [hsj] at htj
        simp only [net_key_delete_cascade, htj] at hcas
        exact Option.noConfusion hcas
      | some key =>
        rw [hsj] at htj
        have hkmem : some key ∈ s0.p_app_keys := List.get?_mem hsj
        have hkff : key.app_idx ≠ BLE_MESH_KEY_UNUSED := hwf key hkmem
        by_cases hkn : key.net_idx = n
        · have hchk : provisioner_check_net_idx t.p_sub key.net_idx false = 0 := by
            rw [hsub, hkn]
            exact (check_net_idx_false_eq_zero _ _).mpr hlive
          have hfirst : ∀ m k0, m < j → t.p_app_keys.get? m = some (some k0) →
              ¬(k0.net_idx = key.net_idx ∧ k0.app_idx = key.app_idx) := by
            intro m k0 hm hk0 hcon
            obtain ⟨ka, hka⟩ := hocc m hm
            have hp := hproc m ka hm hka
            by_cases hkan : ka.net_idx = n
            · have hnone := (hp.1 hkan).1
              rw [hnone] at hk0
              simp at hk0
            · have heq := hp.2 hkan
              rw [heq, hka] at hk0
              simp only [Option.some_inj] at hk0
              subst hk0
              exact hkan (by rw [hcon.1, hkn])
          have hdel := app_key_delete_eq t key.net_idx j key hchk htj rfl hfirst
          simp only [net_key_delete_cascade, htj, if_pos hkn, hdel] at hcas
          have hjlent : j < t.p_app_keys.length := by omega
          refine ih (j + 1) _ s1 (by omega) (by simpa using hsub)
            (by simpa using hklen) ?_ ?_ ?_ hcas
          · intro m hm
            rcases Nat.lt_or_ge m j with hmj | hmj
            · exact hocc m hmj
            · have hmeq : m = j := by omega
              subst hmeq
              exact ⟨key, hsj⟩
          · intro m k0 hm hk0
            rcases Nat.lt_or_ge m j with hmj | hmj
            · have hp := hproc m k0 hmj hk0
              have hk0mem : some k0 ∈ s0.p_app_keys := List.get?_mem hk0
              have hk0ff : k0.app_idx ≠ BLE_MESH_KEY_UNUSED := hwf k0 hk0mem
              constructor
              · intro hk0n
                refine ⟨?_, ?_⟩
                · show (t.p_app_keys.set j none).get? m = some none
                  rw [get?_set_ne2 _ _ (show j ≠ m by omega)]
                  exact (hp.1 hk0n).1
                · intro mo hmo
                  rcases List.mem_map.mp hmo with ⟨mo0, hmo0, rfl⟩
                  exact model_unbind_preserves_absent mo0 _ _
                    ((hp.1 hk0n).2 mo0 hmo0) hk0ff
              · intro hk0n
                show (t.p_app_keys.set j none).get? m = s0.p_app_keys.get? m
                rw [get?_set_ne2 _ _ (show j ≠ m by omega)]
                exact hp.2 hk0n
            · have hmeq : m = j := by omega
              subst hmeq
              rw [hsj] at hk0
              simp only [Option.some_inj] at hk0
              subst hk0
              constructor
              · intro _
                refine ⟨?_, ?_⟩
                · show (t.p_app_keys.set m none).get? m = some none
                  exact get?_set_self2 _ _ _ hjlent
                · intro mo hmo
                  rcases List.mem_map.mp hmo with ⟨mo0, hmo0, rfl⟩
                  exact model_unbind_removes mo0 _ hkff
              · intro hk0n
                exact absurd hkn hk0n
          · intro m hm
            show (t.p_app_keys.set j none).get? m = s0.p_app_keys.get? m
            rw [get?_set_ne2 _ _ (show j ≠ m by omega)]
            exact hunproc m (by omega)
        · simp only [net_key_delete_cascade, htj] at hcas
          rw [if_neg hkn] at hcas
          refine ih (j + 1) t s1 (by omega) hsub hklen ?_ ?_ ?_ hcas
          · intro m hm
            rcases Nat.lt_or_ge m j with hmj | hmj
            · exact hocc m hmj
            · have hmeq : m = j := by omega
              subst hmeq
              exact ⟨key, hsj⟩
          · intro m k0 hm hk0
            rcases Nat.lt_or_ge m j with hmj | hmj
            · exact hproc m k0 hmj hk0
            · have hmeq : m = j := by omega
              subst hmeq
              rw [hsj] at hk0
              simp only [Option.some_inj] at hk0
              subst hk0
              refine ⟨fun hk0n => absurd hk0n hkn, fun _ => hunproc m (le_refl m)⟩
          · intro m hm
            exact hunproc m (by omega)

/-- Claim C1: whenever bt_mesh_provisioner_local_net_key_delete n returns
success, every live application key of the resulting state has an owning
net_idx different from n; every application key that was live with net_idx n
has been unbound from every model's key-binding slots; and the cascade ran to
completion on an intermediate state — already free of application keys owned
by n — before the subnet row itself was freed.  (States whose live
application keys use the reserved sentinel 0xFFFF as app_idx are excluded:
the sentinel marks an unused binding slot.) -/
theorem netkey_delete_cascade_complete (s : MeshState) (n : Nat) (s2 : MeshState)
    (hwf : ∀ k, some k ∈ s.p_app_keys → k.app_idx ≠ BLE_MESH_KEY_UNUSED)
    (hdel : bt_mesh_provisioner_local_net_key_delete s n = some (0, s2)) :
    (∀ k, some k ∈ s2.p_app_keys → k.net_idx ≠ n) ∧
    (∀ k, some k ∈ s.p_app_keys → k.net_idx = n →
       ∀ mo ∈ s2.models, k.app_idx ∉ mo.keys) ∧
    (∃ i s1, net_key_delete_cascade n (List.range s.p_app_keys.length) s = some s1 ∧
       (∀ k, some k ∈ s1.p_app_keys → k.net_idx ≠ n) ∧
       s2 = { s1 with p_sub := s1.p_sub.set i none }) := by
  unfold bt_mesh_provisioner_local_net_key_delete at hdel
  by_cases hchk : provisioner_check_net_idx s.p_sub n false ≠ 0
  · rw [if_pos hchk, Option.some_inj, Prod.mk.injEq] at hdel
    exact absurd hdel.1 (by decide)
  · rw [if_neg hchk] at hdel
    push_neg at hchk
    have hlive := (check_net_idx_false_eq_zero _ _).mp hchk
    rcases hfi : s.p_sub.findIdx? (fun o => o.any fun sub => decide (sub.net_idx = n))
        with _ | i
    · rw [hfi, Option.some_inj, Prod.mk.injEq] at hdel
      exact absurd hdel.1 (by decide)
    · rw [hfi] at hdel
      rcases hcas : net_key_delete_cascade n (List.range s.p_app_keys.length) s with _ | s1
      · rw [hcas] at hdel
        exact Option.noConfusion hdel
      · rw [hcas, Option.some_inj, Prod.mk.injEq] at hdel
        have hs2 : s2 = { s1 with p_sub := s1.p_sub.set i none } := hdel.2.symm
        have hcas2 := hcas
        rw [List.range_eq_range'] at hcas2
        obtain ⟨hsub1, hlen1, hocc1, hproc1⟩ :=
          cascade_inv n s hlive hwf s.p_app_keys.length 0 s s1 (Nat.zero_add _) rfl rfl
            (fun m hm => absurd hm (Nat.not_lt_zero m))
            (fun m k0 hm _ => absurd hm (Nat.not_lt_zero m))
            (fun m _ => rfl) hcas2
        have ha1 : ∀ k, some k ∈ s1.p_app_keys → k.net_idx ≠ n := by
          intro k hk hkn
          obtain ⟨m, hm⟩ := List.mem_iff_get?.mp hk
          have hmlen : m < s.p_app_keys.length := by
            have := get?_some_lt_length hm
            omega
          obtain ⟨k0, hk0⟩ := hocc1 m hmlen
          have hp := hproc1 m k0 hmlen hk0
          by_cases hk0n : k0.net_idx = n
          · have hnone := (hp.1 hk0n).1
            rw [hnone] at hm
            simp at hm
          · have heq := hp.2 hk0n
            rw [heq, hk0] at hm
            simp only [Option.some_inj] at hm
            subst hm
            exact hk0n hkn
        have hb : ∀ k, some k ∈ s.p_app_keys → k.net_idx = n →
            ∀ mo ∈ s1.models, k.app_idx ∉ mo.keys := by
          intro k hk hkn mo hmo
          obtain ⟨m, hm⟩ := List.mem_iff_get?.mp hk
          have hmlen : m < s.p_app_keys.length := get?_some_lt_length hm
          exact ((hproc1 m k hmlen hm).1 hkn).2 mo hmo
        subst hs2
        exact ⟨ha1, hb, ⟨i, s1, rfl, ha1, rfl⟩⟩

/-- Witness state for claim C1: subnet 1 live, a full application-key table
whose single key is owned by subnet 1, and that key bound to a model slot. -/
def exS1 : MeshState :=
  { mesh_nodes := [], all_node_count := 0, prov_node_count := 0,
    p_sub := [some exSub, none], p_app_keys := [some exAppKey],
    p_net_idx_next := 2, p_app_idx_next := 0, rpl := [],
    models := [{ keys := [5, 0xFFFF], pub := none }] }

/-- The state produced by deleting network key 1 from exS1. -/
def exS1res : MeshState :=
  { mesh_nodes := [], all_node_count := 0, prov_node_count := 0,
    p_sub := [none, none], p_app_keys := [none],
    p_net_idx_next := 2, p_app_idx_next := 0, rpl := [],
    models := [{ keys := [0xFFFF, 0xFFFF], pub := none }] }

/-- Witness for claim C1 at the concrete state exS1: the delete succeeds and
the cascade removes application key 5 and its model binding before the subnet
row is freed. -/
theorem netkey_delete_cascade_complete_witness :
    (∀ k, some k ∈ exS1.p_app_keys → k.app_idx ≠ BLE_MESH_KEY_UNUSED) ∧
    bt_mesh_provisioner_local_net_key_delete exS1 1 = some (0, exS1res) ∧
    ((∀ k, some k ∈ exS1res.p_app_keys → k.net_idx ≠ 1) ∧
     (∀ k, some k ∈ exS1.p_app_keys → k.net_idx = 1 →
        ∀ mo ∈ exS1res.models, k.app_idx ∉ mo.keys) ∧
     (∃ i s1, net_key_delete_cascade 1 (List.range exS1.p_app_keys.length) exS1 = some s1 ∧
        (∀ k, some k ∈ s1.p_app_keys → k.net_idx ≠ 1) ∧
        exS1res = { s1 with p_sub := s1.p_sub.set i none })) :=
  ⟨fun k hk => by
     have hke : k = exAppKey := by
       simp only [exS1, List.mem_singleton] at hk
       exact Option.some_inj.mp hk
     rw [hke]
     decide,
   by decide,
   netkey_delete_cascade_complete exS1 1 exS1res
     (fun k hk => by
        have hke : k = exAppKey := by
          simp only [exS1, List.mem_singleton] at hk
          exact Option.some_inj.mp hk
        rw [hke]
        decide)
     (by decide)⟩
